import Mathlib

/-!
# picoclaw `pkg/mcp`: the MCP client registry, discovery and tool invocation

A shallow embedding of `src/pkg/mcp/client.go` and theorems about it.

* The registry `servers map[string]*MCPServer` is an association list with
  unique keys (`AList`).  The lock `mu` is not modelled: every operation is
  taken as one atomic step.
* Go's `error` values are the texts built by `fmt.Errorf`.
* The network (`net/http`) is a parameter of every operation that uses it, a
  `Transport`.  Every operation also reports the requests it handed to
  `client.Do`, so that "no network call" is a statement about that list.
* `encoding/json` is modelled in the first part of the file: the syntax check
  that `json.Unmarshal` runs over the whole input, the decoding into the three
  anonymous envelope structs of `client.go`, and `json.Marshal` of the
  `interface{}` values the decoder produces.
* The source assigns `io.NopCloser(jsonData)` to the request body, with
  `jsonData` a byte slice.  The model takes the request body to be those bytes.
* Bodies and strings are sequences of Unicode characters (well-formed UTF-8).
  The texts of the errors that come out of the libraries stand for the
  library's own wording; the statements below speak of them as "a cause".
-/

namespace MCP

/-! ## `encoding/json`: syntax -/

/-- A JSON document as a tree; `ν` is what a number carries. -/
inductive Tree (ν : Type) where
  | null : Tree ν
  | bool (b : Bool) : Tree ν
  | number (n : ν) : Tree ν
  | string (s : String) : Tree ν
  | array (items : List (Tree ν)) : Tree ν
  | object (members : List (String × Tree ν)) : Tree ν

/-- The result of the syntax check: numbers are still their literal text. -/
abbrev Raw := Tree (List Char)

/-- Lexical tokens of JSON. A string token holds the text between its quotes,
escape sequences not yet decoded. -/
inductive Token where
  | lbrace | rbrace | lbrack | rbrack | colon | comma
  | str (raw : List Char)
  | num (lit : List Char)
  | litTrue | litFalse | litNull

/-- Where the scanner is inside a number literal (the states `stateNeg`,
`state0`, `state1`, `stateDot`, `stateDot0`, `stateE`, `stateESign`,
`stateE0` of the library's scanner). -/
inductive NumState where
  | neg | zero | int | dot | frac | e | eSign | exp
  deriving DecidableEq

/-- What the scanner is in the middle of. -/
inductive LexMode where
  | idle
  | inString (acc : List Char)
  | inEscape (acc : List Char)
  | inUnicode (acc : List Char) (n : Nat)
  | inNumber (st : NumState) (acc : List Char)
  | inLiteral (rest : List Char) (tok : Token)

/-- Scanner state: the mode and the tokens produced so far, newest first. -/
structure LexState where
  mode : LexMode
  toks : List Token

/-- The scanner's `isSpace`. -/
def isWhitespace (c : Char) : Bool :=
  c == ' ' || c == '\t' || c == '\r' || c == '\n'

/-- A decimal digit. -/
def isDigit (c : Char) : Bool := '0'.toNat ≤ c.toNat && c.toNat ≤ '9'.toNat

/-- A decimal digit other than zero. -/
def isDigit19 (c : Char) : Bool := '1'.toNat ≤ c.toNat && c.toNat ≤ '9'.toNat

/-- A hexadecimal digit of either case. -/
def isHex (c : Char) : Bool :=
  isDigit c || ('a'.toNat ≤ c.toNat && c.toNat ≤ 'f'.toNat)
    || ('A'.toNat ≤ c.toNat && c.toNat ≤ 'F'.toNat)

/-- A number literal may end in these states. -/
def NumState.accepting : NumState → Bool
  | .zero | .int | .frac | .exp => true
  | _ => false

/-- One character inside a number: the next state, or `none` when the
character does not continue the literal. -/
def NumState.next (st : NumState) (c : Char) : Option NumState :=
  match st with
  | .neg => if c == '0' then some .zero else if isDigit19 c then some .int else none
  | .zero => if c == '.' then some .dot else if c == 'e' || c == 'E' then some .e else none
  | .int =>
    if isDigit c then some .int else if c == '.' then some .dot
    else if c == 'e' || c == 'E' then some .e else none
  | .dot => if isDigit c then some .frac else none
  | .frac => if isDigit c then some .frac else if c == 'e' || c == 'E' then some .e else none
  | .e => if c == '+' || c == '-' then some .eSign else if isDigit c then some .exp else none
  | .eSign => if isDigit c then some .exp else none
  | .exp => if isDigit c then some .exp else none

/-- The scanner at the beginning of a token. -/
def lexIdle (toks : List Token) (c : Char) : Except String LexState :=
  if isWhitespace c then .ok ⟨.idle, toks⟩
  else if c == '{' then .ok ⟨.idle, .lbrace :: toks⟩
  else if c == '}' then .ok ⟨.idle, .rbrace :: toks⟩
  else if c == '[' then .ok ⟨.idle, .lbrack :: toks⟩
  else if c == ']' then .ok ⟨.idle, .rbrack :: toks⟩
  else if c == ':' then .ok ⟨.idle, .colon :: toks⟩
  else if c == ',' then .ok ⟨.idle, .comma :: toks⟩
  else if c == '"' then .ok ⟨.inString [], toks⟩
  else if c == '-' then .ok ⟨.inNumber .neg [c], toks⟩
  else if c == '0' then .ok ⟨.inNumber .zero [c], toks⟩
  else if isDigit19 c then .ok ⟨.inNumber .int [c], toks⟩
  else if c == 't' then .ok ⟨.inLiteral ['r', 'u', 'e'] .litTrue, toks⟩
  else if c == 'f' then .ok ⟨.inLiteral ['a', 'l', 's', 'e'] .litFalse, toks⟩
  else if c == 'n' then .ok ⟨.inLiteral ['u', 'l', 'l'] .litNull, toks⟩
  else .error "invalid character looking for beginning of value"

/-- One character of input. -/
def lexStep (s : LexState) (c : Char) : Except String LexState :=
  match s.mode with
  | .idle => lexIdle s.toks c
  | .inString acc =>
    if c == '"' then .ok ⟨.idle, .str acc.reverse :: s.toks⟩
    else if c == '\\' then .ok ⟨.inEscape (c :: acc), s.toks⟩
    else if c.toNat < 0x20 then .error "invalid character in string literal"
    else .ok ⟨.inString (c :: acc), s.toks⟩
  | .inEscape acc =>
    if c == 'b' || c == 'f' || c == 'n' || c == 'r' || c == 't' || c == '\\' || c == '/'
        || c == '"' then
      .ok ⟨.inString (c :: acc), s.toks⟩
    else if c == 'u' then .ok ⟨.inUnicode (c :: acc) 4, s.toks⟩
    else .error "invalid character in string escape code"
  | .inUnicode acc n =>
    if isHex c then
      .ok ⟨if n ≤ 1 then .inString (c :: acc) else .inUnicode (c :: acc) (n - 1), s.toks⟩
    else .error "invalid character in \\u hexadecimal character escape"
  | .inNumber st acc =>
    match st.next c with
    | some st' => .ok ⟨.inNumber st' (c :: acc), s.toks⟩
    | none =>
      if st.accepting then lexIdle (.num acc.reverse :: s.toks) c
      else .error "invalid character in numeric literal"
  | .inLiteral rest tok =>
    match rest with
    | [] => .error "invalid character in literal"
    | [r] => if c == r then .ok ⟨.idle, tok :: s.toks⟩ else .error "invalid character in literal"
    | r :: rest' =>
      if c == r then .ok ⟨.inLiteral rest' tok, s.toks⟩ else .error "invalid character in literal"

/-- End of input: a number may end here, anything else unfinished is an error. -/
def lexFinish (s : LexState) : Except String (List Token) :=
  match s.mode with
  | .idle => .ok s.toks.reverse
  | .inNumber st acc =>
    if st.accepting then .ok (Token.num acc.reverse :: s.toks).reverse
    else .error "unexpected end of JSON input"
  | _ => .error "unexpected end of JSON input"

/-- Fold of a fallible step over a list. -/
def foldExcept {σ α : Type} (f : σ → α → Except String σ) : σ → List α → Except String σ
  | s, [] => .ok s
  | s, a :: as =>
    match f s a with
    | .ok s' => foldExcept f s' as
    | .error e => .error e

/-- The tokens of the input, or the first lexical error. -/
def tokenize (input : List Char) : Except String (List Token) :=
  match foldExcept lexStep ⟨.idle, []⟩ input with
  | .ok s => lexFinish s
  | .error e => .error e

/-! ### String literals -/

/-- A decoded piece of a string literal: a character, or the code unit of a
`\u` escape. -/
inductive StrUnit where
  | ch (c : Char)
  | u (code : Nat)

/-- The value of a hexadecimal digit. -/
def hexVal (c : Char) : Nat :=
  if isDigit c then c.toNat - '0'.toNat
  else if 'a'.toNat ≤ c.toNat && c.toNat ≤ 'f'.toNat then c.toNat - 'a'.toNat + 10
  else c.toNat - 'A'.toNat + 10

/-- The character a one-letter escape stands for. -/
def escChar (c : Char) : Char :=
  if c == 'b' then Char.ofNat 8
  else if c == 'f' then Char.ofNat 12
  else if c == 'n' then '\n'
  else if c == 'r' then '\r'
  else if c == 't' then '\t'
  else c

/-- Split the text of a string token (already checked by the scanner) into
characters and `\u` code units. -/
def unquoteUnits : List Char → List StrUnit
  | [] => []
  | '\\' :: 'u' :: a :: b :: c :: d :: rest =>
    .u (((hexVal a * 16 + hexVal b) * 16 + hexVal c) * 16 + hexVal d) :: unquoteUnits rest
  | '\\' :: e :: rest => .ch (escChar e) :: unquoteUnits rest
  | c :: rest => .ch c :: unquoteUnits rest

/-- The library's `utf16.IsSurrogate`. -/
def isSurrogate (r : Nat) : Bool := 0xd800 ≤ r && r < 0xe000

/-- The replacement character U+FFFD. -/
def replacementChar : Char := Char.ofNat 0xfffd

/-- Turn `\u` code units into characters as `unquote` does: a high surrogate
followed by a low one is one character, any other surrogate is U+FFFD. The
first argument is a high surrogate that has just been read. -/
def combineUnits : Option Nat → List StrUnit → List Char
  | none, [] => []
  | some _, [] => [replacementChar]
  | none, .ch c :: rest => c :: combineUnits none rest
  | some _, .ch c :: rest => replacementChar :: c :: combineUnits none rest
  | none, .u r :: rest =>
    if isSurrogate r then
      if r < 0xdc00 then combineUnits (some r) rest
      else replacementChar :: combineUnits none rest
    else Char.ofNat r :: combineUnits none rest
  | some hi, .u r :: rest =>
    if 0xdc00 ≤ r && r < 0xe000 then
      Char.ofNat ((hi - 0xd800) * 0x400 + (r - 0xdc00) + 0x10000) :: combineUnits none rest
    else if isSurrogate r then replacementChar :: combineUnits (some r) rest
    else replacementChar :: Char.ofNat r :: combineUnits none rest

/-- The value of a string token. -/
def unquote (raw : List Char) : String := String.mk (combineUnits none (unquoteUnits raw))

/-! ### Structure -/

/-- An array or object under construction; items and members newest first. -/
inductive Frame where
  | arr (items : List Raw)
  | obj (members : List (String × Raw)) (key : Option String)

/-- What the parser accepts next. -/
inductive Expect where
  | value | valueOrEnd | keyOrEnd | key | colon | commaOrEnd | finished
  deriving DecidableEq

/-- Parser state: the open containers (innermost first), what is expected
next, and the finished top-level value. -/
structure ParseState where
  stack : List Frame
  expect : Expect
  done : Option Raw

/-- The library's `maxNestingDepth`. -/
def maxNestingDepth : Nat := 10000

/-- A value has been completed: hand it to the innermost open container. -/
def ParseState.put (s : ParseState) (v : Raw) : Except String ParseState :=
  match s.stack with
  | [] => .ok ⟨[], .finished, some v⟩
  | .arr items :: rest => .ok ⟨.arr (v :: items) :: rest, .commaOrEnd, none⟩
  | .obj members (some k) :: rest => .ok ⟨.obj ((k, v) :: members) none :: rest, .commaOrEnd, none⟩
  | .obj _ none :: _ => .error "value without a key"

/-- Open a container, within the depth limit. -/
def ParseState.open (s : ParseState) (f : Frame) (e : Expect) : Except String ParseState :=
  if s.stack.length + 1 ≤ maxNestingDepth then .ok ⟨f :: s.stack, e, none⟩
  else .error "exceeded max depth"

/-- Close the innermost container, which must be of the kind the bracket says. -/
def ParseState.close (s : ParseState) (isObj : Bool) : Except String ParseState :=
  match s.stack with
  | .arr items :: rest =>
    if isObj then .error "invalid closing brace after array element"
    else ParseState.put ⟨rest, .commaOrEnd, none⟩ (.array items.reverse)
  | .obj members none :: rest =>
    if isObj then ParseState.put ⟨rest, .commaOrEnd, none⟩ (.object members.reverse)
    else .error "invalid closing bracket after object key:value pair"
  | _ => .error "invalid closing bracket"

/-- A token that begins (or is) a value. -/
def parseValueTok (s : ParseState) (t : Token) : Except String ParseState :=
  match t with
  | .lbrace => s.open (.obj [] none) .keyOrEnd
  | .lbrack => s.open (.arr []) .valueOrEnd
  | .str raw => s.put (.string (unquote raw))
  | .num lit => s.put (.number lit)
  | .litTrue => s.put (.bool true)
  | .litFalse => s.put (.bool false)
  | .litNull => s.put .null
  | _ => .error "invalid character looking for beginning of value"

/-- A token where an object key is expected. -/
def parseKeyTok (s : ParseState) (t : Token) : Except String ParseState :=
  match t, s.stack with
  | .str raw, .obj members none :: rest =>
    .ok ⟨.obj members (some (unquote raw)) :: rest, .colon, none⟩
  | _, _ => .error "invalid character looking for beginning of object key string"

/-- One token of input. -/
def parseStep (s : ParseState) (t : Token) : Except String ParseState :=
  match s.expect with
  | .value => parseValueTok s t
  | .valueOrEnd =>
    match t with
    | .rbrack => s.close false
    | _ => parseValueTok s t
  | .keyOrEnd =>
    match t with
    | .rbrace => s.close true
    | _ => parseKeyTok s t
  | .key => parseKeyTok s t
  | .colon =>
    match t with
    | .colon => .ok ⟨s.stack, .value, none⟩
    | _ => .error "invalid character after object key"
  | .commaOrEnd =>
    match t, s.stack with
    | .comma, .arr _ :: _ => .ok ⟨s.stack, .value, none⟩
    | .comma, .obj _ _ :: _ => .ok ⟨s.stack, .key, none⟩
    | .rbrack, _ => s.close false
    | .rbrace, _ => s.close true
    | _, _ => .error "invalid character after value"
  | .finished => .error "invalid character after top-level value"

/-- The syntax check of `json.Unmarshal` (`checkValid`) together with the
reading of the document: the whole input must be one JSON value. -/
def parseJSON (input : String) : Except String Raw :=
  match tokenize input.data with
  | .error e => .error e
  | .ok toks =>
    match foldExcept parseStep ⟨[], .value, none⟩ toks with
    | .error e => .error e
    | .ok s =>
      match s.done with
      | some v => .ok v
      | none => .error "unexpected end of JSON input"

/-! ## `float64` and `strconv` -/

/-- A `float64`: `finite neg mant exp` is `±mant·2^exp`. The values that
`strconv.ParseFloat` returns have `mant < 2^53`, `-1074 ≤ exp ≤ 971`, and
`2^52 ≤ mant` unless `exp = -1074`; the finite values of the Go type are
the triples of this form. -/
inductive Float64 where
  | finite (neg : Bool) (mant : Nat) (exp : Int)
  | inf (neg : Bool)
  | nan

/-- The parts of a JSON number literal: its value is
`±digits·10^(exp - fracLen)`; `plain` says that it has neither a fraction nor
an exponent. -/
structure NumLit where
  neg : Bool := false
  digits : Nat := 0
  fracLen : Nat := 0
  expNeg : Bool := false
  exp : Nat := 0
  phase : Nat := 0
  plain : Bool := true

/-- Read one character of a number literal. -/
def NumLit.step (n : NumLit) (c : Char) : NumLit :=
  if c == '-' then (if n.phase == 2 then { n with expNeg := true } else { n with neg := true })
  else if c == '+' then n
  else if c == '.' then { n with phase := 1, plain := false }
  else if c == 'e' || c == 'E' then { n with phase := 2, plain := false }
  else
    let d := c.toNat - '0'.toNat
    if n.phase == 0 then { n with digits := n.digits * 10 + d }
    else if n.phase == 1 then { n with digits := n.digits * 10 + d, fracLen := n.fracLen + 1 }
    else { n with exp := n.exp * 10 + d }

/-- The parts of a literal that the scanner has accepted as a number. -/
def readNumLit (lit : List Char) : NumLit := lit.foldl NumLit.step {}

/-- The power of ten the digits of a literal are multiplied with. -/
def NumLit.exp10 (n : NumLit) : Int :=
  (if n.expNeg then -(n.exp : Int) else (n.exp : Int)) - (n.fracLen : Int)

/-- Number of binary digits of `n`, counted with at most `fuel` halvings. -/
def bitLen : Nat → Nat → Nat
  | 0, _ => 0
  | fuel + 1, n => if n == 0 then 0 else bitLen fuel (n / 2) + 1

/-- The position of the highest set bit of `n`. -/
def log2Floor (n : Nat) : Nat := bitLen n n - 1

/-- The `float64` of a rounded mantissa `m ≤ 2^53` and its exponent: a
mantissa of `2^53` moves to the next exponent, and an exponent beyond the
largest one is out of range. -/
def packFloat64 (neg : Bool) (m : Nat) (e : Int) : Option Float64 :=
  let m' := if m == 2 ^ 53 then 2 ^ 52 else m
  let e' := if m == 2 ^ 53 then e + 1 else e
  if 971 < e' then none else some (.finite neg m' e')

/-- The `float64` nearest to `p/q` (for `p, q > 0`), ties to the even
mantissa; `none` when it is beyond the largest finite value. -/
def nearestFloat64 (neg : Bool) (p q : Nat) : Option Float64 :=
  let s : Int := (log2Floor p : Int) - (log2Floor q : Int)
  let reaches : Bool := if 0 ≤ s then q * 2 ^ s.toNat ≤ p else q ≤ p * 2 ^ (-s).toNat
  let l : Int := if reaches then s else s - 1
  let e : Int := max (l - 52) (-1074)
  let num : Nat := if 0 ≤ e then p else p * 2 ^ (-e).toNat
  let den : Nat := if 0 ≤ e then q * 2 ^ e.toNat else q
  let m0 := num / den
  let r := num % den
  let m := if den < 2 * r || (2 * r == den && m0 % 2 == 1) then m0 + 1 else m0
  packFloat64 neg m e

/-- What `strconv.ParseFloat(lit, 64)` returns for a JSON number literal;
`none` is its range error. -/
def parseFloat (lit : List Char) : Option Float64 :=
  let n := readNumLit lit
  if n.digits == 0 then some (.finite n.neg 0 (-1074))
  else if 0 ≤ n.exp10 then nearestFloat64 n.neg (n.digits * 10 ^ n.exp10.toNat) 1
  else nearestFloat64 n.neg n.digits (10 ^ (-n.exp10).toNat)

/-- Bits of a Go `int` on the 64-bit platforms. -/
def intBits : Nat := 64

/-- What `strconv.ParseInt(lit, 10, 64)` returns for a JSON number literal;
`none` is its syntax or range error. -/
def parseInt (lit : List Char) : Option Int :=
  let n := readNumLit lit
  if !n.plain then none
  else
    let v : Int := if n.neg then -(n.digits : Int) else (n.digits : Int)
    if -(2 ^ (intBits - 1) : Int) ≤ v && v < (2 ^ (intBits - 1) : Int) then some v else none

/-- Whether `m·2^e < m'·2^e'`. -/
def ltScaled (m : Nat) (e : Int) (m' : Nat) (e' : Int) : Bool :=
  if e ≤ e' then m < m' * 2 ^ (e' - e).toNat else m * 2 ^ (e - e').toNat < m'

/-- The search of `strconv`'s shortest formatting for the decimal position at
which the digits of `v/d` may stop: the value lies strictly between `l/d` and
`u/d`, the bounds themselves allowed when `incl`. At the position `10^p` the
value is cut to `k` units; stopping there is fine when the cut value, or the
next one up, is within the bounds. Returns the digits as a number and the
power of ten of its last digit. -/
def shortestFrom (v u l d : Nat) (incl : Bool) : Nat → Int → Nat × Int
  | 0, p => (if 0 ≤ p then v / (d * 10 ^ p.toNat) else v * 10 ^ (-p).toNat / d, p)
  | fuel + 1, p =>
    let sc := 10 ^ (-p).toNat
    let v' := if 0 ≤ p then v else v * sc
    let u' := if 0 ≤ p then u else u * sc
    let l' := if 0 ≤ p then l else l * sc
    let d' := if 0 ≤ p then d * 10 ^ p.toNat else d
    let k := v' / d'
    let down := k * d'
    let up := (k + 1) * d'
    let okdown : Bool := l' < down || (l' == down && incl)
    let okup : Bool := up < u' || (up == u' && incl)
    let r := v' - down
    let nearest := if d' < 2 * r || (2 * r == d' && k % 2 == 1) then k + 1 else k
    if okdown && okup then (nearest, p)
    else if okdown then (k, p)
    else if okup then (k + 1, p)
    else shortestFrom v u l d incl fuel (p - 1)

/-- Drop trailing zero digits. -/
def stripZeros : Nat → Nat → Int → Nat × Int
  | 0, k, p => (k, p)
  | fuel + 1, k, p => if k != 0 && k % 10 == 0 then stripZeros fuel (k / 10) (p + 1) else (k, p)

/-- The shortest decimal digits that identify the positive `float64`
`mant·2^exp`: the digits and the power of ten of the last one. -/
def shortestDigits (mant : Nat) (exp : Int) : List Char × Int :=
  let e2 := exp - 2
  let delta := if mant == 2 ^ 52 && -1074 < exp then 1 else 2
  let sh := 2 ^ e2.toNat
  let v := if 0 ≤ e2 then 4 * mant * sh else 4 * mant
  let u := if 0 ≤ e2 then (4 * mant + 2) * sh else 4 * mant + 2
  let l := if 0 ≤ e2 then (4 * mant - delta) * sh else 4 * mant - delta
  let d := if 0 ≤ e2 then 1 else 2 ^ (-e2).toNat
  let start : Int := ((Nat.repr (u / d)).length : Int)
  let r := shortestFrom v u l d (mant % 2 == 0) (start + 1076).toNat start
  let r' := stripZeros 400 r.1 r.2
  ((Nat.repr r'.1).data, r'.2)

/-- Format `%f` of `strconv.FormatFloat` with the shortest precision: `dp` is the
position of the decimal point within the digits. -/
def fmtF (ds : List Char) (dp : Int) : List Char :=
  let ip : List Char :=
    if 0 < dp then ds.take dp.toNat ++ List.replicate (dp.toNat - ds.length) '0' else ['0']
  let fp : List Char :=
    if dp < (ds.length : Int) then
      '.' :: (List.replicate (-dp).toNat '0' ++ ds.drop dp.toNat)
    else []
  ip ++ fp

/-- Format `%e` of `strconv.FormatFloat` with the shortest precision, after the
clean-up of `encoding/json` that turns `e-09` into `e-9`. -/
def fmtE (ds : List Char) (dp : Int) : List Char :=
  let first : List Char := match ds with
    | [] => ['0']
    | c :: rest => if rest.isEmpty then [c] else c :: '.' :: rest
  let ex := dp - 1
  let sign := if ex < 0 then '-' else '+'
  let a := ex.natAbs
  let digits : List Char := if a < 10 then ['0', Char.ofNat (a + '0'.toNat)] else (Nat.repr a).data
  let cleaned : List Char := match digits with
    | ['0', c] => [c]
    | other => other
  first ++ 'e' :: sign :: cleaned

/-- How `encoding/json` writes a `float64`; an infinity or NaN is an
`UnsupportedValueError`. -/
def encodeFloat : Float64 → Except String (List Char)
  | .nan => .error "json: unsupported value: NaN"
  | .inf neg => .error (if neg then "json: unsupported value: -Inf" else "json: unsupported value: +Inf")
  | .finite neg mant exp =>
    let sgn : List Char := if neg then ['-'] else []
    if mant == 0 then .ok (sgn ++ ['0'])
    else
      let r := shortestDigits mant exp
      let dp : Int := (r.1.length : Int) + r.2
      let small : Bool := match nearestFloat64 false 1 (10 ^ 6) with
        | some (.finite _ m6 e6) => ltScaled mant exp m6 e6
        | _ => false
      let big : Bool := !(ltScaled mant exp (10 ^ 21) 0)
      if small || big then .ok (sgn ++ fmtE r.1 dp) else .ok (sgn ++ fmtF r.1 dp)

/-! ## `encoding/json`: values and `json.Marshal` -/

/-- A Go value of the kinds `json.Unmarshal` stores in an `interface{}`:
`nil`, `bool`, `float64`, `string`, `[]interface{}` and
`map[string]interface{}`. A map is given by its insertions in order, a later
one replacing an earlier one under the same key. -/
abbrev Value := Tree Float64

/-- A `map[string]interface{}`; `none` is the nil map. -/
abbrev GoMap := Option (List (String × Value))

/-- The lower-case hexadecimal digit of a value below 16. -/
def hexDigit (n : Nat) : Char :=
  if n < 10 then Char.ofNat (n + '0'.toNat) else Char.ofNat (n - 10 + 'a'.toNat)

/-- How `json.Marshal` writes one character of a string (HTML escaping on;
the short forms for backspace and form feed are those of Go 1.22). -/
def encodeChar (c : Char) : List Char :=
  if c == '\\' || c == '"' then ['\\', c]
  else if c.toNat == 8 then ['\\', 'b']
  else if c.toNat == 12 then ['\\', 'f']
  else if c == '\n' then ['\\', 'n']
  else if c == '\r' then ['\\', 'r']
  else if c == '\t' then ['\\', 't']
  else if c.toNat < 0x20 || c == '<' || c == '>' || c == '&' then
    ['\\', 'u', '0', '0', hexDigit (c.toNat / 16), hexDigit (c.toNat % 16)]
  else if c.toNat == 0x2028 then ['\\', 'u', '2', '0', '2', '8']
  else if c.toNat == 0x2029 then ['\\', 'u', '2', '0', '2', '9']
  else [c]

/-- The characters of a string, each written as `encodeChar` says. -/
def encodeChars : List Char → List Char
  | [] => []
  | c :: cs => encodeChar c ++ encodeChars cs

/-- A string as a JSON string literal. -/
def encodeString (s : String) : List Char := '"' :: (encodeChars s.data ++ ['"'])

/-- Byte-wise order of strings, as `sort.Strings` and `strings.Compare` use
it: the order of the UTF-8 encodings is the order of the character codes. -/
def ltChars : List Char → List Char → Bool
  | [], [] => false
  | [], _ :: _ => true
  | _ :: _, [] => false
  | a :: as, b :: bs =>
    if a.toNat < b.toNat then true else if b.toNat < a.toNat then false else ltChars as bs

/-- Put a key into a list sorted by key, replacing the entry of that key. -/
def insertMember {α : Type} (k : String) (a : α) : List (String × α) → List (String × α)
  | [] => [(k, a)]
  | (k', a') :: rest =>
    if ltChars k.data k'.data then (k, a) :: (k', a') :: rest
    else if k = k' then (k, a) :: rest
    else (k', a') :: insertMember k a rest

/-- The map a sequence of insertions builds, in the key order in which
`json.Marshal` writes it. -/
def sortMembers {α : Type} (ms : List (String × α)) : List (String × α) :=
  ms.foldl (fun acc m => insertMember m.1 m.2 acc) []

/-- Join encoded elements with commas. -/
def joinComma : List (List Char) → List Char
  | [] => []
  | [x] => x
  | x :: xs => x ++ ',' :: joinComma xs

/-- Write the members of a map in the given order; the first member that
cannot be encoded is the error. -/
def encodeMembers : List (String × Except String (List Char)) → Except String (List (List Char))
  | [] => .ok []
  | (k, v) :: rest =>
    match v with
    | .error e => .error e
    | .ok cs =>
      match encodeMembers rest with
      | .error e => .error e
      | .ok done => .ok ((encodeString k ++ ':' :: cs) :: done)

/-- An object from the encodings of its insertions. -/
def encodeObject (ms : List (String × Except String (List Char))) : Except String (List Char) :=
  match encodeMembers (sortMembers ms) with
  | .error e => .error e
  | .ok parts => .ok ('{' :: (joinComma parts ++ ['}']))

mutual
/-- The text `json.Marshal` produces for a value, or its error. -/
def marshalValue : Value → Except String (List Char)
  | .null => .ok "null".data
  | .bool b => .ok (if b then "true".data else "false".data)
  | .number f => encodeFloat f
  | .string s => .ok (encodeString s)
  | .array items =>
    match marshalItems items with
    | .error e => .error e
    | .ok parts => .ok ('[' :: (joinComma parts ++ [']']))
  | .object members => encodeObject (marshalMembers members)
/-- The elements of a slice in order; the first failure is the error. -/
def marshalItems : List Value → Except String (List (List Char))
  | [] => .ok []
  | v :: vs =>
    match marshalValue v with
    | .error e => .error e
    | .ok cs =>
      match marshalItems vs with
      | .error e => .error e
      | .ok done => .ok (cs :: done)
/-- Every inserted value with its encoding. -/
def marshalMembers : List (String × Value) → List (String × Except String (List Char))
  | [] => []
  | (k, v) :: rest => (k, marshalValue v) :: marshalMembers rest
end

/-! ## `encoding/json`: `json.Unmarshal` into the structs of `client.go` -/

mutual
/-- Decoding into an `interface{}`. A number becomes a `float64`; one beyond
its range is an `UnmarshalTypeError`. -/
def toInterface : Raw → Except String Value
  | .null => .ok .null
  | .bool b => .ok (.bool b)
  | .number lit =>
    match parseFloat lit with
    | some f => .ok (.number f)
    | none =>
      .error ("json: cannot unmarshal number " ++ String.mk lit ++ " into Go value of type float64")
  | .string s => .ok (.string s)
  | .array items =>
    match toInterfaceItems items with
    | .error e => .error e
    | .ok vs => .ok (.array vs)
  | .object members =>
    match toInterfaceMembers members with
    | .error e => .error e
    | .ok ms => .ok (.object ms)
/-- Decoding the elements of an array into a `[]interface{}`. -/
def toInterfaceItems : List Raw → Except String (List Value)
  | [] => .ok []
  | r :: rs =>
    match toInterface r with
    | .error e => .error e
    | .ok v =>
      match toInterfaceItems rs with
      | .error e => .error e
      | .ok vs => .ok (v :: vs)
/-- Decoding the members of an object into a `map[string]interface{}`. -/
def toInterfaceMembers : List (String × Raw) → Except String (List (String × Value))
  | [] => .ok []
  | (k, r) :: rs =>
    match toInterface r with
    | .error e => .error e
    | .ok v =>
      match toInterfaceMembers rs with
      | .error e => .error e
      | .ok vs => .ok ((k, v) :: vs)
end

/-- The library's `foldRune`, as far as it matters for comparing with ASCII
field names: letters to upper case, and the two characters outside ASCII
whose case folding is an ASCII letter (U+017F and U+212A). -/
def foldChar (c : Char) : Char :=
  if 'a'.toNat ≤ c.toNat && c.toNat ≤ 'z'.toNat then Char.ofNat (c.toNat - 32)
  else if c.toNat == 0x17f then 'S'
  else if c.toNat == 0x212a then 'K'
  else c

/-- Whether an object key selects the struct field with this JSON name: an
exact match or a case-insensitive one. -/
def fieldIs (name key : String) : Bool := key.data.map foldChar == name.data.map foldChar

/-- The text of an `UnmarshalTypeError`. -/
def typeError (what field : String) : String :=
  "json: cannot unmarshal " ++ what ++ " into Go struct field " ++ field

/-- Decoding into a `string` field. -/
def decodeString (field : String) (cur : String) : Raw → Except String String
  | .null => .ok cur
  | .string s => .ok s
  | .bool _ => .error (typeError "bool" field)
  | .number _ => .error (typeError "number" field)
  | .array _ => .error (typeError "array" field)
  | .object _ => .error (typeError "object" field)

/-- Decoding into an `int` field. -/
def decodeInt (field : String) (cur : Int) : Raw → Except String Int
  | .null => .ok cur
  | .number lit =>
    match parseInt lit with
    | some n => .ok n
    | none => .error (typeError ("number " ++ String.mk lit) field)
  | .bool _ => .error (typeError "bool" field)
  | .string _ => .error (typeError "string" field)
  | .array _ => .error (typeError "array" field)
  | .object _ => .error (typeError "object" field)

/-- The anonymous struct `Error` of the three envelopes. -/
structure RPCError where
  Code : Int
  Message : String
  deriving DecidableEq

/-- One member of the object decoded into the struct behind `Error`. -/
def decodeRPCErrorField (e : RPCError) (m : String × Raw) : Except String RPCError :=
  if fieldIs "code" m.1 then
    match decodeInt "error.code" e.Code m.2 with
    | .ok n => .ok { e with Code := n }
    | .error err => .error err
  else if fieldIs "message" m.1 then
    match decodeString "error.message" e.Message m.2 with
    | .ok s => .ok { e with Message := s }
    | .error err => .error err
  else .ok e

/-- Decoding into the pointer field `Error`: `null` makes it nil, an object is
decoded into the struct it points to, allocated when it is nil. -/
def decodeErrorPtr (cur : Option RPCError) : Raw → Except String (Option RPCError)
  | .null => .ok none
  | .object members =>
    match foldExcept decodeRPCErrorField (cur.getD ⟨0, ""⟩) members with
    | .ok e => .ok (some e)
    | .error err => .error err
  | .bool _ => .error (typeError "bool" "error")
  | .number _ => .error (typeError "number" "error")
  | .string _ => .error (typeError "string" "error")
  | .array _ => .error (typeError "array" "error")

/-- The struct `ExecuteTool` decodes the response into. A nil `Result` is
`Tree.null`. -/
structure CallEnvelope where
  Result : Value
  Error : Option RPCError

/-- One member of the top-level object of a `tools/call` response. -/
def decodeCallField (env : CallEnvelope) (m : String × Raw) : Except String CallEnvelope :=
  if fieldIs "result" m.1 then
    match toInterface m.2 with
    | .ok v => .ok { env with Result := v }
    | .error err => .error err
  else if fieldIs "error" m.1 then
    match decodeErrorPtr env.Error m.2 with
    | .ok e => .ok { env with Error := e }
    | .error err => .error err
  else .ok env

/-- Decoding the top-level value into a struct that starts as `zero`: `null`
leaves it, an object sets its fields member by member, anything else is an
`UnmarshalTypeError`. -/
def decodeStruct {σ : Type} (step : σ → String × Raw → Except String σ) (zero : σ) :
    Raw → Except String σ
  | .null => .ok zero
  | .object members => foldExcept step zero members
  | .bool _ => .error "json: cannot unmarshal bool into Go value of type struct"
  | .number _ => .error "json: cannot unmarshal number into Go value of type struct"
  | .string _ => .error "json: cannot unmarshal string into Go value of type struct"
  | .array _ => .error "json: cannot unmarshal array into Go value of type struct"

/-- The call `json.Unmarshal(body, &result)` of `ExecuteTool`. -/
def unmarshalCall (body : String) : Except String CallEnvelope :=
  match parseJSON body with
  | .error e => .error e
  | .ok raw => decodeStruct decodeCallField ⟨.null, none⟩ raw

/-! ## The data model of `client.go` -/

/-- A tool exposed via MCP. -/
structure MCPTool where
  Name : String
  Description : String
  InputSchema : GoMap

/-- A resource exposed via MCP. -/
structure MCPResource where
  URI : String
  Name : String
  Description : String
  MimeType : String
  deriving DecidableEq

/-- An MCP server configuration. -/
structure MCPServer where
  Name : String
  Endpoint : String
  Enabled : Bool
  Tools : List MCPTool
  Resources : List MCPResource

/-- Decoding into the field `InputSchema`: `null` makes the map nil, an object
adds its members to the map, created when it is nil. -/
def decodeSchema (cur : GoMap) : Raw → Except String GoMap
  | .null => .ok none
  | .object members =>
    match toInterfaceMembers members with
    | .ok ms => .ok (some (cur.getD [] ++ ms))
    | .error err => .error err
  | .bool _ => .error (typeError "bool" "result.tools.inputSchema")
  | .number _ => .error (typeError "number" "result.tools.inputSchema")
  | .string _ => .error (typeError "string" "result.tools.inputSchema")
  | .array _ => .error (typeError "array" "result.tools.inputSchema")

/-- One member of an object decoded into an `MCPTool`. -/
def decodeToolField (t : MCPTool) (m : String × Raw) : Except String MCPTool :=
  if fieldIs "name" m.1 then
    match decodeString "result.tools.name" t.Name m.2 with
    | .ok v => .ok { t with Name := v }
    | .error err => .error err
  else if fieldIs "description" m.1 then
    match decodeString "result.tools.description" t.Description m.2 with
    | .ok v => .ok { t with Description := v }
    | .error err => .error err
  else if fieldIs "inputSchema" m.1 then
    match decodeSchema t.InputSchema m.2 with
    | .ok v => .ok { t with InputSchema := v }
    | .error err => .error err
  else .ok t

/-- One member of an object decoded into an `MCPResource`. -/
def decodeResourceField (r : MCPResource) (m : String × Raw) : Except String MCPResource :=
  if fieldIs "uri" m.1 then
    match decodeString "result.resources.uri" r.URI m.2 with
    | .ok v => .ok { r with URI := v }
    | .error err => .error err
  else if fieldIs "name" m.1 then
    match decodeString "result.resources.name" r.Name m.2 with
    | .ok v => .ok { r with Name := v }
    | .error err => .error err
  else if fieldIs "description" m.1 then
    match decodeString "result.resources.description" r.Description m.2 with
    | .ok v => .ok { r with Description := v }
    | .error err => .error err
  else if fieldIs "mimeType" m.1 then
    match decodeString "result.resources.mimeType" r.MimeType m.2 with
    | .ok v => .ok { r with MimeType := v }
    | .error err => .error err
  else .ok r

/-- A Go slice as `json.Unmarshal` works on it: its elements, and the
elements that an earlier, longer array left behind them in the backing array. -/
structure Slice (σ : Type) where
  items : List σ
  spare : List σ

/-- Decoding the elements of an array into a slice with the given backing
elements: element `i` is decoded into what the backing array holds at `i`,
into a zero element when it holds nothing there. Returns the elements and the
part of the backing array that was not reached. -/
def decodeElems {σ : Type} (elem : σ → Raw → Except String σ) (zero : σ) :
    List Raw → List σ → Except String (List σ × List σ)
  | [], backing => .ok ([], backing)
  | r :: rs, backing =>
    match elem (backing.headD zero) r with
    | .error err => .error err
    | .ok v =>
      match decodeElems elem zero rs backing.tail with
      | .error err => .error err
      | .ok (vs, rest) => .ok (v :: vs, rest)

/-- Decoding into a slice field. `null` makes it nil and an empty array makes
it a new empty slice. Any other array is decoded into the slice the field
already has: the elements it holds, and those beyond its length that an
earlier array left in the backing array, are decoded into and not cleared
first; the length becomes that of the array. -/
def decodeSlice {σ : Type} (field : String) (elem : σ → Raw → Except String σ) (zero : σ)
    (cur : Slice σ) : Raw → Except String (Slice σ)
  | .null => .ok ⟨[], []⟩
  | .array [] => .ok ⟨[], []⟩
  | .array (r :: rs) =>
    match decodeElems elem zero (r :: rs) (cur.items ++ cur.spare) with
    | .error err => .error err
    | .ok (vs, rest) => .ok ⟨vs, rest⟩
  | .bool _ => .error (typeError "bool" field)
  | .number _ => .error (typeError "number" field)
  | .string _ => .error (typeError "string" field)
  | .object _ => .error (typeError "object" field)

/-- The struct `discoverTools` decodes the response into. -/
structure ToolsEnvelope where
  Tools : Slice MCPTool
  Error : Option RPCError

/-- The struct `discoverResources` decodes the response into. -/
structure ResourcesEnvelope where
  Resources : Slice MCPResource
  Error : Option RPCError

/-- One member of the object decoded into the struct `Result` of `discoverTools`. -/
def decodeToolsResultField (ts : Slice MCPTool) (m : String × Raw) :
    Except String (Slice MCPTool) :=
  if fieldIs "tools" m.1 then
    decodeSlice "result.tools" (decodeStruct decodeToolField) ⟨"", "", none⟩ ts m.2
  else .ok ts

/-- One member of the object decoded into the struct `Result` of `discoverResources`. -/
def decodeResourcesResultField (rs : Slice MCPResource) (m : String × Raw) :
    Except String (Slice MCPResource) :=
  if fieldIs "resources" m.1 then
    decodeSlice "result.resources" (decodeStruct decodeResourceField) ⟨"", "", "", ""⟩ rs m.2
  else .ok rs

/-- One member of the top-level object of a `tools/list` response. -/
def decodeToolsField (env : ToolsEnvelope) (m : String × Raw) : Except String ToolsEnvelope :=
  if fieldIs "result" m.1 then
    match decodeStruct decodeToolsResultField env.Tools m.2 with
    | .ok ts => .ok { env with Tools := ts }
    | .error err => .error err
  else if fieldIs "error" m.1 then
    match decodeErrorPtr env.Error m.2 with
    | .ok e => .ok { env with Error := e }
    | .error err => .error err
  else .ok env

/-- One member of the top-level object of a `resources/list` response. -/
def decodeResourcesField (env : ResourcesEnvelope) (m : String × Raw) :
    Except String ResourcesEnvelope :=
  if fieldIs "result" m.1 then
    match decodeStruct decodeResourcesResultField env.Resources m.2 with
    | .ok rs => .ok { env with Resources := rs }
    | .error err => .error err
  else if fieldIs "error" m.1 then
    match decodeErrorPtr env.Error m.2 with
    | .ok e => .ok { env with Error := e }
    | .error err => .error err
  else .ok env

/-- The call `json.Unmarshal(body, &result)` of `discoverTools`. -/
def unmarshalTools (body : String) : Except String ToolsEnvelope :=
  match parseJSON body with
  | .error e => .error e
  | .ok raw => decodeStruct decodeToolsField ⟨⟨[], []⟩, none⟩ raw

/-- The call `json.Unmarshal(body, &result)` of `discoverResources`. -/
def unmarshalResources (body : String) : Except String ResourcesEnvelope :=
  match parseJSON body with
  | .error e => .error e
  | .ok raw => decodeStruct decodeResourcesField ⟨⟨[], []⟩, none⟩ raw

/-! ## The network -/

/-- A request as handed to `client.Do`. -/
structure HttpRequest where
  Method : String
  URL : String
  ContentType : String
  Body : String
  deriving DecidableEq

/-- A response: its status code and what `io.ReadAll(resp.Body)` returns. -/
structure HttpResponse where
  StatusCode : Int
  Body : Except String String

/-- The behaviour of `net/http`, of the network and of the remote servers
during one operation: the error of `http.NewRequestWithContext` for a method
and address (`none` when it succeeds), and the result of `client.Do`.
Time-outs and cancellation of the context are failures of `roundTrip`. -/
structure Transport where
  newRequest : String → String → Option String
  roundTrip : HttpRequest → Except String HttpResponse

/-- Lines 146-158, 201-213 and 253-265: build the POST request with the JSON
body and send it. Returns the response or the error, and the requests that
were handed to `client.Do`. -/
def post (net : Transport) (endpoint : String) (jsonData : String) :
    Except String HttpResponse × List HttpRequest :=
  match net.newRequest "POST" endpoint with
  | some err => (.error ("failed to create request: " ++ err), [])
  | none =>
    let httpReq : HttpRequest := ⟨"POST", endpoint, "application/json", jsonData⟩
    match net.roundTrip httpReq with
    | .error err => (.error ("failed to send request: " ++ err), [httpReq])
    | .ok resp => (.ok resp, [httpReq])

/-- `fmt.Errorf("MCP error %d: %s", code, message)`. -/
def mcpErrorText (e : RPCError) : String :=
  "MCP error " ++ toString e.Code ++ ": " ++ e.Message

/-- The request `{"method": method, "params": params}` as a Go value. -/
def requestValue (method : String) (params : Value) : Value :=
  .object [("method", .string method), ("params", params)]

/-! ## `MCPClIENT` -/

/-- The client: the registry of servers by name. -/
structure MCPClIENT where
  servers : AList (fun _ : String => MCPServer)

/-- `NewMCPClient`. -/
def NewMCPClient : MCPClIENT := ⟨∅⟩

/-- `discoverTools`: the tools of the server, or the error; and the requests sent. -/
def discoverTools (net : Transport) (endpoint : String) :
    Except String (List MCPTool) × List HttpRequest :=
  match marshalValue (requestValue "tools/list" (.object [])) with
  | .error err => (.error ("failed to marshal request: " ++ err), [])
  | .ok jsonData =>
    match post net endpoint (String.mk jsonData) with
    | (.error err, sent) => (.error err, sent)
    | (.ok resp, sent) =>
      match resp.Body with
      | .error err => (.error ("failed to read response: " ++ err), sent)
      | .ok body =>
        match unmarshalTools body with
        | .error err => (.error ("failed to parse response: " ++ err), sent)
        | .ok result =>
          match result.Error with
          | some e => (.error (mcpErrorText e), sent)
          | none => (.ok result.Tools.items, sent)

/-- `discoverResources`: the resources of the server, or the error; and the
requests sent. -/
def discoverResources (net : Transport) (endpoint : String) :
    Except String (List MCPResource) × List HttpRequest :=
  match marshalValue (requestValue "resources/list" (.object [])) with
  | .error err => (.error ("failed to marshal request: " ++ err), [])
  | .ok jsonData =>
    match post net endpoint (String.mk jsonData) with
    | (.error err, sent) => (.error err, sent)
    | (.ok resp, sent) =>
      match resp.Body with
      | .error err => (.error ("failed to read response: " ++ err), sent)
      | .ok body =>
        match unmarshalResources body with
        | .error err => (.error ("failed to parse response: " ++ err), sent)
        | .ok result =>
          match result.Error with
          | some e => (.error (mcpErrorText e), sent)
          | none => (.ok result.Resources.items, sent)

/-- What `AddServer`, `EnableServer` and `DisableServer` leave behind: the
client afterwards, the returned error (`none` is `nil`) and the requests sent. -/
structure Update where
  client : MCPClIENT
  err : Option String
  sent : List HttpRequest

/-- `AddServer`. -/
def AddServer (c : MCPClIENT) (net : Transport) (name endpoint : String) : Update :=
  let server : MCPServer := ⟨name, endpoint, true, [], []⟩
  match discoverTools net endpoint with
  | (.error err, sent) =>
    ⟨c, some ("failed to discover tools from MCP server " ++ name ++ ": " ++ err), sent⟩
  | (.ok tools, sent) =>
    let server := { server with Tools := tools }
    match discoverResources net endpoint with
    | (.ok resources, sent') =>
      ⟨⟨c.servers.insert name { server with Resources := resources }⟩, none, sent ++ sent'⟩
    | (.error _, sent') => ⟨⟨c.servers.insert name server⟩, none, sent ++ sent'⟩

/-- `GetServers`: the names of the configured servers. The order in which Go
visits a map is not specified; the list is in the order of the model. -/
def GetServers (c : MCPClIENT) : List String := c.servers.keys

/-- The first tool of the given name (the loop of `GetTool`). -/
def findTool (toolName : String) : List MCPTool → Option MCPTool
  | [] => none
  | tool :: rest => if tool.Name = toolName then some tool else findTool toolName rest

/-- `GetTool`. -/
def GetTool (c : MCPClIENT) (serverName toolName : String) : Except String MCPTool :=
  match c.servers.lookup serverName with
  | none => .error ("MCP server " ++ serverName ++ " not found")
  | some server =>
    match findTool toolName server.Tools with
    | some tool => .ok tool
    | none => .error ("tool " ++ toolName ++ " not found in MCP server " ++ serverName)

/-- What `ExecuteTool` returns, and the requests it sent. -/
structure ExecResult where
  result : String
  err : Option String
  sent : List HttpRequest
  deriving DecidableEq

/-- `ExecuteTool`. -/
def ExecuteTool (c : MCPClIENT) (net : Transport) (serverName toolName : String)
    (arguments : GoMap) : ExecResult :=
  match c.servers.lookup serverName with
  | none => ⟨"", some ("MCP server " ++ serverName ++ " not found"), []⟩
  | some server =>
    if !server.Enabled then ⟨"", some ("MCP server " ++ serverName ++ " is disabled"), []⟩
    else
      let args : Value := match arguments with
        | none => .null
        | some ms => .object ms
      let req := requestValue "tools/call" (.object [("name", .string toolName), ("arguments", args)])
      match marshalValue req with
      | .error err => ⟨"", some ("failed to marshal request: " ++ err), []⟩
      | .ok jsonData =>
        match post net server.Endpoint (String.mk jsonData) with
        | (.error err, sent) => ⟨"", some err, sent⟩
        | (.ok resp, sent) =>
          if resp.StatusCode ≠ 200 then
            ⟨"", some ("MCP server returned status " ++ toString resp.StatusCode), sent⟩
          else
            match resp.Body with
            | .error err => ⟨"", some ("failed to read response: " ++ err), sent⟩
            | .ok body =>
              match unmarshalCall body with
              | .error err => ⟨"", some ("failed to parse response: " ++ err), sent⟩
              | .ok result =>
                match result.Error with
                | some e => ⟨"", some (mcpErrorText e), sent⟩
                | none =>
                  match marshalValue result.Result with
                  | .ok resultJSON => ⟨String.mk resultJSON, none, sent⟩
                  | .error _ => ⟨"", none, sent⟩

/-- `RemoveServer`. -/
def RemoveServer (c : MCPClIENT) (name : String) : MCPClIENT := ⟨c.servers.erase name⟩

/-- `EnableServer`. -/
def EnableServer (c : MCPClIENT) (name : String) : Update :=
  match c.servers.lookup name with
  | none => ⟨c, some ("MCP server " ++ name ++ " not found"), []⟩
  | some server => ⟨⟨c.servers.replace name { server with Enabled := true }⟩, none, []⟩

/-- `DisableServer`. -/
def DisableServer (c : MCPClIENT) (name : String) : Update :=
  match c.servers.lookup name with
  | none => ⟨c, some ("MCP server " ++ name ++ " not found"), []⟩
  | some server => ⟨⟨c.servers.replace name { server with Enabled := false }⟩, none, []⟩

/-! ## What the claims speak about -/

/-- The text of the error for an unknown server (lines 124, 307 and 321). -/
def notFoundText (name : String) : String := "MCP server " ++ name ++ " not found"

/-- The text of the error for a disabled server (line 128). -/
def disabledText (name : String) : String := "MCP server " ++ name ++ " is disabled"

/-- The text of the error for a response status other than 200 (line 161). -/
def statusText (code : Int) : String := "MCP server returned status " ++ toString code

/-- The Go value `ExecuteTool` marshals as its request. -/
def callRequestValue (toolName : String) (arguments : GoMap) : Value :=
  requestValue "tools/call"
    (.object [("name", .string toolName),
      ("arguments", match arguments with
        | none => .null
        | some ms => .object ms)])

/-- The server `serverName` is registered and enabled, and the `tools/call`
request for it is answered with `resp`: the request `req` can be built and
`client.Do` returns `resp` for it. -/
def Answers (c : MCPClIENT) (net : Transport) (serverName toolName : String) (arguments : GoMap)
    (req : HttpRequest) (resp : HttpResponse) : Prop :=
  ∃ server jsonData,
    c.servers.lookup serverName = some server ∧ server.Enabled = true ∧
    marshalValue (callRequestValue toolName arguments) = .ok jsonData ∧
    net.newRequest "POST" server.Endpoint = none ∧
    req = ⟨"POST", server.Endpoint, "application/json", String.mk jsonData⟩ ∧
    net.roundTrip req = .ok resp

/-- The value of the last member of an object that selects the struct field
`name`, after `acc` when there is none: the member that decides what
`json.Unmarshal` leaves in the field. -/
def lastFieldFrom (name : String) : Option Raw → List (String × Raw) → Option Raw
  | acc, [] => acc
  | acc, m :: ms => lastFieldFrom name (if fieldIs name m.1 then some m.2 else acc) ms

/-- The value of the last member of an object that selects the struct field
`name`, if there is one. -/
def lastField (name : String) (ms : List (String × Raw)) : Option Raw := lastFieldFrom name none ms

/-- Lines 177-186 of `ExecuteTool` for a body that was read from a response of
status 200: the returned text and error. -/
def bodyOutcome (body : String) : String × Option String :=
  match unmarshalCall body with
  | .error err => ("", some ("failed to parse response: " ++ err))
  | .ok result =>
    match result.Error with
    | some e => ("", some (mcpErrorText e))
    | none =>
      match marshalValue result.Result with
      | .ok resultJSON => (String.mk resultJSON, none)
      | .error _ => ("", none)

mutual
/-- Every number literal in the document has a `float64` value: none is beyond
the range of `strconv.ParseFloat`. -/
def inFloatRange : Raw → Bool
  | .null => true
  | .bool _ => true
  | .number lit => (parseFloat lit).isSome
  | .string _ => true
  | .array items => inFloatRangeItems items
  | .object members => inFloatRangeMembers members
/-- The elements of an array are all within range. -/
def inFloatRangeItems : List Raw → Bool
  | [] => true
  | r :: rs => inFloatRange r && inFloatRangeItems rs
/-- The members of an object are all within range. -/
def inFloatRangeMembers : List (String × Raw) → Bool
  | [] => true
  | (_, r) :: rs => inFloatRange r && inFloatRangeMembers rs
end


/-- The text `part` occurs in `text`. -/
def Contains (text part : String) : Prop := part.data <:+: text.data

/-! ## Example inputs -/

/-- A network on which every request is answered with the given status and body. -/
def answering (status : Int) (body : String) : Transport :=
  ⟨fun _ _ => none, fun _ => .ok ⟨status, .ok body⟩⟩

/-- The body `{"result": 42, "error": null}`. -/
def bodyResult42 : String := "\x7b\"result\": 42, \"error\": null\x7d"

/-- The body `{"result": null, "error": {"code": 1, "message": "boom"}}`. -/
def bodyErrorBoom : String := "\x7b\"result\": null, \"error\": \x7b\"code\": 1, \"message\": \"boom\"\x7d\x7d"

/-- The body `{"result": 1e400, "error": null}`. -/
def bodyResult1e400 : String := "\x7b\"result\": 1e400, \"error\": null\x7d"

/-- The body `{"result": 9007199254740993, "error": null}`. -/
def bodyResultBig : String := "\x7b\"result\": 9007199254740993, \"error\": null\x7d"

/-- The body
`{"result": {"b": [1.50, "a<b", true, null], "a": 100, "a": "x\ny"}, "error": null}`. -/
def bodyResultNested : String :=
  "\x7b\"result\": \x7b\"b\": [1.50, \"a<b\", true, null], \"a\": 100, \"a\": \"x\\ny\"\x7d, \"error\": null\x7d"

/-- The body `{"result": 1e400, "error": {"code": 1, "message": "boom"}}`. -/
def bodyErrorBoom1e400 : String :=
  "\x7b\"result\": 1e400, \"error\": \x7b\"code\": 1, \"message\": \"boom\"\x7d\x7d"

/-- The body
`{"result": null, "error": {"code": -32601, "message": "no \"echo\"\u0021\n"}}`. -/
def bodyErrorEscaped : String :=
  "\x7b\"result\": null, \"error\": \x7b\"code\": -32601, \"message\": \"no \\\"echo\\\"\\u0021\\n\"\x7d\x7d"

/-- The body `{"result": null, "error": {"code": 1.0, "message": "boom"}}`. -/
def bodyErrorCodeFloat : String :=
  "\x7b\"result\": null, \"error\": \x7b\"code\": 1.0, \"message\": \"boom\"\x7d\x7d"

/-- The body `{"result":{},"error":null}`. -/
def bodyEmptyResult : String := "\x7b\"result\":\x7b\x7d,\"error\":null\x7d"

/-- The body `{"result":{"tools":[{"name":"echo"}]},"error":null}`. -/
def bodyOneTool : String := "\x7b\"result\":\x7b\"tools\":[\x7b\"name\":\"echo\"\x7d]\x7d,\"error\":null\x7d"

/-- The body `{"result":{"resources":[{"uri":"file:///a","name":"a"}]},"error":null}`. -/
def bodyOneResource : String := "\x7b\"result\":\x7b\"resources\":[\x7b\"uri\":\"file:///a\",\"name\":\"a\"\x7d]\x7d,\"error\":null\x7d"

/-- The body `{"method":"tools/list","params":{}}` of the `tools/list` request. -/
def toolsListBody : String := "\x7b\"method\":\"tools/list\",\"params\":\x7b\x7d\x7d"

/-- The body `{"method":"resources/list","params":{}}` of the `resources/list` request. -/
def resourcesListBody : String := "\x7b\"method\":\"resources/list\",\"params\":\x7b\x7d\x7d"

/-- A server whose answer to `tools/list` has status 500 and a well-formed
envelope with one tool; it answers every other request with status 200 and an
empty result. -/
def toolsStatus500 : Transport :=
  ⟨fun _ _ => none, fun req =>
    if req.Body = toolsListBody then
      .ok ⟨500, .ok bodyOneTool⟩
    else .ok ⟨200, .ok bodyEmptyResult⟩⟩

/-- A server that answers `tools/list` with status 200 and one tool, and whose
answer to `resources/list` has status 500 and a well-formed envelope with one
resource. -/
def resourcesStatus500 : Transport :=
  ⟨fun _ _ => none, fun req =>
    if req.Body = resourcesListBody then
      .ok ⟨500, .ok bodyOneResource⟩
    else .ok ⟨200, .ok bodyOneTool⟩⟩

/-- A server that answers `tools/list` with status 200 and one tool, and
`resources/list` with status 500 and a body that is not JSON. -/
def resourcesBroken : Transport :=
  ⟨fun _ _ => none, fun req =>
    if req.Body = resourcesListBody then .ok ⟨500, .ok "Internal Server Error"⟩
    else .ok ⟨200, .ok bodyOneTool⟩⟩

/-- A client with the enabled server `srv` and the disabled server `off`. -/
def demoClient : MCPClIENT :=
  ⟨((∅ : AList (fun _ : String => MCPServer)).insert "off"
      ⟨"off", "http://off.test", false, [], []⟩).insert "srv"
      ⟨"srv", "http://mcp.test", true, [], []⟩⟩

/-- The request `ExecuteTool` sends to `srv` for the tool `echo` with a nil
argument map; its body is
`{"method":"tools/call","params":{"arguments":null,"name":"echo"}}`. -/
def demoRequest : HttpRequest :=
  ⟨"POST", "http://mcp.test", "application/json",
    "\x7b\"method\":\"tools/call\",\"params\":\x7b\"arguments\":null,\"name\":\"echo\"\x7d\x7d"⟩

/-! ## Lemmas -/

theorem dlookup_kreplace_ne {β : String → Type} {a a' : String} (b : β a) (h : a' ≠ a) :
    ∀ l : List (Sigma β), List.dlookup a' (List.kreplace a b l) = List.dlookup a' l
  | [] => rfl
  | ⟨k, v⟩ :: l => by
    by_cases hk : a = k
    · subst hk
      have e : List.kreplace a b (⟨a, v⟩ :: l) = ⟨a, b⟩ :: l := by
        simp [List.kreplace, List.lookmap_cons_some]
      rw [e, List.dlookup_cons_ne l ⟨a, b⟩ h, List.dlookup_cons_ne l ⟨a, v⟩ h]
    · have ih := dlookup_kreplace_ne b h l
      have e : List.kreplace a b (⟨k, v⟩ :: l) = ⟨k, v⟩ :: List.kreplace a b l := by
        simp only [List.kreplace]
        rw [List.lookmap_cons_none _ _ (by simp [hk])]
      rw [e]
      by_cases hk' : a' = k
      · subst hk'; simp
      · rw [List.dlookup_cons_ne _ ⟨k, v⟩ hk', List.dlookup_cons_ne _ ⟨k, v⟩ hk', ih]

theorem dlookup_kreplace_self {β : String → Type} {a : String} (b : β a) :
    ∀ l : List (Sigma β), a ∈ l.keys → List.dlookup a (List.kreplace a b l) = some b
  | [], h => by simp at h
  | ⟨k, v⟩ :: l, h => by
    by_cases hk : a = k
    · subst hk
      simp [List.kreplace, List.lookmap_cons_some]
    · have ih := dlookup_kreplace_self b l (by simpa [hk] using h)
      have e : List.kreplace a b (⟨k, v⟩ :: l) = ⟨k, v⟩ :: List.kreplace a b l := by
        simp only [List.kreplace]
        rw [List.lookmap_cons_none _ _ (by simp [hk])]
      rw [e, List.dlookup_cons_ne _ ⟨k, v⟩ hk, ih]

theorem lookup_replace_ne {a a' : String} (b : MCPServer) (s : AList (fun _ : String => MCPServer))
    (h : a' ≠ a) : (s.replace a b).lookup a' = s.lookup a' :=
  @dlookup_kreplace_ne (fun _ => MCPServer) a a' b h s.entries

theorem lookup_replace_self {a : String} (b : MCPServer) (s : AList (fun _ : String => MCPServer))
    (h : a ∈ s) : (s.replace a b).lookup a = some b :=
  @dlookup_kreplace_self (fun _ => MCPServer) a b s.entries h

theorem mem_getServers_iff (c : MCPClIENT) (name : String) :
    name ∈ GetServers c ↔ ∃ server, c.servers.lookup name = some server := by
  unfold GetServers
  rw [← AList.mem_keys, ← AList.lookup_isSome, Option.isSome_iff_exists]

theorem not_mem_getServers_iff (c : MCPClIENT) (name : String) :
    name ∉ GetServers c ↔ c.servers.lookup name = none := by
  unfold GetServers
  rw [← AList.mem_keys, AList.lookup_eq_none]

/-- After `insert` the key is listed exactly once. -/
theorem count_keys_insert (s : AList (fun _ : String => MCPServer)) (name : String)
    (server : MCPServer) : (s.insert name server).keys.count name = 1 :=
  List.count_eq_one_of_mem (s.insert name server).keys_nodup
    (AList.mem_keys.mp ((AList.mem_insert s).mpr (Or.inl rfl)))

/-- A successful `AddServer` stores a record under `name` built from the name
and endpoint given. -/
theorem addServer_ok (c : MCPClIENT) (net : Transport) (name endpoint : String)
    (h : (AddServer c net name endpoint).err = none) :
    ∃ tools resources, (AddServer c net name endpoint).client
      = ⟨c.servers.insert name ⟨name, endpoint, true, tools, resources⟩⟩ := by
  unfold AddServer at h ⊢
  rcases hT : discoverTools net endpoint with ⟨rT, sT⟩
  rw [hT] at h
  cases rT with
  | error e => simp at h
  | ok tools =>
    rcases hR : discoverResources net endpoint with ⟨rR, sR⟩
    cases rR with
    | error e => exact ⟨tools, [], rfl⟩
    | ok resources => exact ⟨tools, resources, rfl⟩

theorem encodeFloat_finite (neg : Bool) (m : Nat) (e : Int) :
    ∃ cs, encodeFloat (.finite neg m e) = .ok cs := by
  simp only [encodeFloat]
  split
  · exact ⟨_, rfl⟩
  · split
    · exact ⟨_, rfl⟩
    · exact ⟨_, rfl⟩

theorem nearestFloat64_finite {neg : Bool} {p q : Nat} {f : Float64}
    (h : nearestFloat64 neg p q = some f) : ∃ m e, f = .finite neg m e := by
  have hp : ∃ m e, nearestFloat64 neg p q = packFloat64 neg m e := ⟨_, _, rfl⟩
  obtain ⟨m, e, hp⟩ := hp
  rw [hp] at h
  by_cases hc : 971 < (if m == 2 ^ 53 then e + 1 else e)
  · unfold packFloat64 at h
    dsimp only at h
    rw [if_pos hc] at h
    exact absurd h (by simp)
  · unfold packFloat64 at h
    dsimp only at h
    rw [if_neg hc] at h
    exact ⟨_, _, (Option.some.inj h).symm⟩

theorem parseFloat_finite {lit : List Char} {f : Float64} (h : parseFloat lit = some f) :
    ∃ neg m e, f = .finite neg m e := by
  simp only [parseFloat] at h
  split at h
  · exact ⟨_, _, _, (Option.some.inj h).symm⟩
  · split at h
    · exact ⟨_, nearestFloat64_finite h⟩
    · exact ⟨_, nearestFloat64_finite h⟩

theorem mem_insertMember {α : Type} (k : String) (a : α) (x : String × α) :
    ∀ l : List (String × α), x ∈ insertMember k a l → x = (k, a) ∨ x ∈ l
  | [], h => by simpa [insertMember] using h
  | (k', a') :: rest, h => by
    simp only [insertMember] at h
    split at h
    · simpa using h
    · split at h
      · rcases List.mem_cons.mp h with h | h
        · exact Or.inl h
        · exact Or.inr (List.mem_cons_of_mem _ h)
      · rcases List.mem_cons.mp h with h | h
        · exact Or.inr (h ▸ List.mem_cons_self _ _)
        · rcases mem_insertMember k a x rest h with h | h
          · exact Or.inl h
          · exact Or.inr (List.mem_cons_of_mem _ h)

theorem mem_foldl_insertMember {α : Type} (x : String × α) :
    ∀ (ms acc : List (String × α)),
      x ∈ ms.foldl (fun acc m => insertMember m.1 m.2 acc) acc → x ∈ acc ∨ x ∈ ms
  | [], acc, h => Or.inl h
  | m :: ms, acc, h => by
    rcases mem_foldl_insertMember x ms _ h with h | h
    · rcases mem_insertMember _ _ _ _ h with h | h
      · exact Or.inr (h ▸ List.mem_cons_self _ _)
      · exact Or.inl h
    · exact Or.inr (List.mem_cons_of_mem _ h)

theorem mem_sortMembers {α : Type} {x : String × α} {ms : List (String × α)}
    (h : x ∈ sortMembers ms) : x ∈ ms := by
  rcases mem_foldl_insertMember x ms [] h with h | h
  · simp at h
  · exact h

theorem encodeMembers_ok :
    ∀ l : List (String × Except String (List Char)),
      (∀ m ∈ l, ∃ cs, m.2 = .ok cs) → ∃ parts, encodeMembers l = .ok parts
  | [], _ => ⟨[], rfl⟩
  | (k, v) :: rest, h => by
    obtain ⟨cs, hcs⟩ := h (k, v) (List.mem_cons_self _ _)
    obtain ⟨parts, hp⟩ := encodeMembers_ok rest (fun m hm => h m (List.mem_cons_of_mem _ hm))
    simp only at hcs
    subst hcs
    simp only [encodeMembers, hp]
    exact ⟨_, rfl⟩

theorem encodeObject_ok {ms : List (String × Except String (List Char))}
    (h : ∀ m ∈ ms, ∃ cs, m.2 = .ok cs) : ∃ cs, encodeObject ms = .ok cs := by
  obtain ⟨parts, hp⟩ := encodeMembers_ok (sortMembers ms) (fun m hm => h m (mem_sortMembers hm))
  simp only [encodeObject, hp]
  exact ⟨_, rfl⟩

mutual
theorem toInterface_marshals :
    ∀ (r : Raw) (v : Value), toInterface r = .ok v → ∃ cs, marshalValue v = .ok cs
  | .null, v, h => by
    simp only [toInterface, Except.ok.injEq] at h
    subst h
    simp only [marshalValue]
    exact ⟨_, rfl⟩
  | .bool b, v, h => by
    simp only [toInterface, Except.ok.injEq] at h
    subst h
    simp only [marshalValue]
    exact ⟨_, rfl⟩
  | .number lit, v, h => by
    simp only [toInterface] at h
    split at h
    · rename_i f hf
      simp only [Except.ok.injEq] at h
      subst h
      obtain ⟨neg, m, e, rfl⟩ := parseFloat_finite hf
      simp only [marshalValue]
      exact encodeFloat_finite neg m e
    · simp at h
  | .string s, v, h => by
    simp only [toInterface, Except.ok.injEq] at h
    subst h
    simp only [marshalValue]
    exact ⟨_, rfl⟩
  | .array items, v, h => by
    simp only [toInterface] at h
    split at h
    · simp at h
    · rename_i vs hvs
      simp only [Except.ok.injEq] at h
      subst h
      obtain ⟨parts, hp⟩ := toInterfaceItems_marshals items vs hvs
      simp only [marshalValue, hp]
      exact ⟨_, rfl⟩
  | .object members, v, h => by
    simp only [toInterface] at h
    split at h
    · simp at h
    · rename_i ms hms
      simp only [Except.ok.injEq] at h
      subst h
      simp only [marshalValue]
      exact encodeObject_ok (toInterfaceMembers_marshals members ms hms)
theorem toInterfaceItems_marshals :
    ∀ (rs : List Raw) (vs : List Value), toInterfaceItems rs = .ok vs →
      ∃ parts, marshalItems vs = .ok parts
  | [], vs, h => by
    simp only [toInterfaceItems, Except.ok.injEq] at h
    subst h
    simp only [marshalItems]
    exact ⟨_, rfl⟩
  | r :: rs, vs, h => by
    simp only [toInterfaceItems] at h
    split at h
    · simp at h
    · rename_i v hv
      split at h
      · simp at h
      · rename_i vs2 hvs
        simp only [Except.ok.injEq] at h
        subst h
        obtain ⟨cs, hcs⟩ := toInterface_marshals r v hv
        obtain ⟨parts, hp⟩ := toInterfaceItems_marshals rs vs2 hvs
        simp only [marshalItems, hcs, hp]
        exact ⟨_, rfl⟩
theorem toInterfaceMembers_marshals :
    ∀ (rs : List (String × Raw)) (vs : List (String × Value)), toInterfaceMembers rs = .ok vs →
      ∀ m ∈ marshalMembers vs, ∃ cs, m.2 = .ok cs
  | [], vs, h => by
    simp only [toInterfaceMembers, Except.ok.injEq] at h
    subst h
    simp [marshalMembers]
  | (k, r) :: rs, vs, h => by
    simp only [toInterfaceMembers] at h
    split at h
    · simp at h
    · rename_i v hv
      split at h
      · simp at h
      · rename_i vs2 hvs
        simp only [Except.ok.injEq] at h
        subst h
        intro m hm
        simp only [marshalMembers, List.mem_cons] at hm
        rcases hm with hm | hm
        · subst hm
          exact toInterface_marshals r v hv
        · exact toInterfaceMembers_marshals rs vs2 hvs m hm
end

/-- What `ExecuteTool` does once the request has been answered: the part of
the function after `client.Do` (lines 160-186). -/
theorem executeTool_answered {c : MCPClIENT} {net : Transport} {serverName toolName : String}
    {arguments : GoMap} {req : HttpRequest} {resp : HttpResponse}
    (h : Answers c net serverName toolName arguments req resp) :
    ExecuteTool c net serverName toolName arguments =
      if resp.StatusCode ≠ 200 then ⟨"", some (statusText resp.StatusCode), [req]⟩
      else
        match resp.Body with
        | .error err => ⟨"", some ("failed to read response: " ++ err), [req]⟩
        | .ok body =>
          match unmarshalCall body with
          | .error err => ⟨"", some ("failed to parse response: " ++ err), [req]⟩
          | .ok result =>
            match result.Error with
            | some e => ⟨"", some (mcpErrorText e), [req]⟩
            | none =>
              match marshalValue result.Result with
              | .ok resultJSON => ⟨String.mk resultJSON, none, [req]⟩
              | .error _ => ⟨"", none, [req]⟩ := by
  obtain ⟨server, jsonData, hl, he, hm, hn, hreq, hrt⟩ := h
  subst hreq
  unfold callRequestValue at hm
  unfold ExecuteTool
  simp only [hl, he, hm, post, hn, hrt, statusText]
  rfl

theorem foldExcept_invariant {σ α : Type} (f : σ → α → Except String σ) (P : σ → Prop)
    (step : ∀ s a s', P s → f s a = .ok s' → P s') :
    ∀ (l : List α) (s s' : σ), P s → foldExcept f s l = .ok s' → P s'
  | [], s, s', hs, h => by
    simp only [foldExcept, Except.ok.injEq] at h
    exact h ▸ hs
  | a :: l, s, s', hs, h => by
    simp only [foldExcept] at h
    split at h
    · rename_i s1 h1
      exact foldExcept_invariant f P step l s1 s' (step s a s1 hs h1) h
    · simp at h

/-- The `Result` that `json.Unmarshal` leaves in the envelope can always be
marshalled again. -/
theorem unmarshalCall_marshals {body : String} {env : CallEnvelope}
    (h : unmarshalCall body = .ok env) : ∃ cs, marshalValue env.Result = .ok cs := by
  have step : ∀ (s : CallEnvelope) (m : String × Raw) (s' : CallEnvelope),
      (∃ cs, marshalValue s.Result = .ok cs) → decodeCallField s m = .ok s' →
      ∃ cs, marshalValue s'.Result = .ok cs := by
    intro s m s' hs hm
    unfold decodeCallField at hm
    split at hm
    · split at hm
      · rename_i v hv
        simp only [Except.ok.injEq] at hm
        subst hm
        exact toInterface_marshals _ _ hv
      · simp at hm
    · split at hm
      · split at hm
        · simp only [Except.ok.injEq] at hm
          subst hm
          exact hs
        · simp at hm
      · simp only [Except.ok.injEq] at hm
        subst hm
        exact hs
  have zero : ∃ cs, marshalValue (⟨.null, none⟩ : CallEnvelope).Result = .ok cs :=
    ⟨"null".data, by simp only [marshalValue]⟩
  unfold unmarshalCall at h
  split at h
  · simp at h
  · rename_i raw hraw
    cases raw with
    | null =>
      simp only [decodeStruct, Except.ok.injEq] at h
      subst h
      exact zero
    | object members =>
      simp only [decodeStruct] at h
      exact foldExcept_invariant decodeCallField _ step members _ env zero h
    | bool b => simp [decodeStruct] at h
    | number n => simp [decodeStruct] at h
    | string s => simp [decodeStruct] at h
    | array items => simp [decodeStruct] at h

theorem contains_append_right (a b : String) : Contains (a ++ b) b :=
  ⟨a.data, [], by simp [String.data_append]⟩

theorem contains_append_left (a b part : String) (h : Contains a part) : Contains (a ++ b) part := by
  obtain ⟨s, t, hst⟩ := h
  exact ⟨s, t ++ b.data, by simp [String.data_append, ← hst]⟩

/-- What `ExecuteTool` returns once a response of status 200 has been read: the
outcome of its body. -/
theorem executeTool_ok_body {c : MCPClIENT} {net : Transport} {serverName toolName : String}
    {arguments : GoMap} {req : HttpRequest} {resp : HttpResponse} {body : String}
    (h : Answers c net serverName toolName arguments req resp)
    (hs : resp.StatusCode = 200) (hb : resp.Body = .ok body) :
    ExecuteTool c net serverName toolName arguments
      = ⟨(bodyOutcome body).1, (bodyOutcome body).2, [req]⟩ := by
  rw [executeTool_answered h]
  simp only [hs, hb, ne_eq, not_true_eq_false, if_false, bodyOutcome]
  cases unmarshalCall body with
  | error err => rfl
  | ok result =>
    cases hE : result.Error with
    | some e => simp only [hE]
    | none =>
      simp only [hE]
      cases marshalValue result.Result <;> rfl

/-- No key selects both `Result` and `Error`. -/
theorem fieldIs_result_not_error {k : String} (h : fieldIs "result" k = true) :
    fieldIs "error" k = false := by
  unfold fieldIs at h ⊢
  rw [beq_iff_eq] at h
  rw [h]
  decide

/-- The error for a response that cannot be parsed is never the text of a remote
error. -/
theorem parseError_ne_mcpError (cause : String) (e : RPCError) :
    "failed to parse response: " ++ cause ≠ mcpErrorText e := by
  intro h
  have hl : ("failed to parse response: " ++ cause).data.head? = some 'f' := by
    rw [String.data_append]; rfl
  have hr : (mcpErrorText e).data.head? = some 'M' := by
    unfold mcpErrorText
    rw [String.data_append, String.data_append, String.data_append]; rfl
  rw [h, hr] at hl
  exact absurd hl (by decide)

/-- Decoding the members of an envelope one after the other leaves in `Result`
the decoded value of the last `result` member, and `Error` is nil exactly when
the last `error` member is `null` or there is none. -/
theorem decodeCall_last :
    ∀ (ms : List (String × Raw)) (s env : CallEnvelope) (accR accE : Option Raw),
      foldExcept decodeCallField s ms = .ok env →
      toInterface (accR.getD .null) = .ok s.Result →
      (s.Error = none ↔ (accE = none ∨ accE = some .null)) →
      toInterface ((lastFieldFrom "result" accR ms).getD .null) = .ok env.Result ∧
      (env.Error = none ↔
        (lastFieldFrom "error" accE ms = none ∨ lastFieldFrom "error" accE ms = some .null))
  | [], s, env, accR, accE, h, hR, hE => by
    simp only [foldExcept, Except.ok.injEq] at h
    subst h
    exact ⟨hR, hE⟩
  | m :: ms, s, env, accR, accE, h, hR, hE => by
    simp only [foldExcept] at h
    split at h
    · rename_i s1 h1
      simp only [lastFieldFrom]
      refine decodeCall_last ms s1 env _ _ h ?_ ?_
      · unfold decodeCallField at h1
        cases hr : fieldIs "result" m.1 with
        | true =>
          simp only [hr, if_true] at h1 ⊢
          split at h1
          · rename_i v hv
            simp only [Except.ok.injEq] at h1
            subst h1
            exact hv
          · simp at h1
        | false =>
          simp only [hr, Bool.false_eq_true, if_false] at h1 ⊢
          split at h1
          · split at h1
            · simp only [Except.ok.injEq] at h1
              subst h1
              exact hR
            · simp at h1
          · simp only [Except.ok.injEq] at h1
            subst h1
            exact hR
      · unfold decodeCallField at h1
        cases hr : fieldIs "result" m.1 with
        | true =>
          have hne := fieldIs_result_not_error hr
          simp only [hr, if_true] at h1
          simp only [hne, Bool.false_eq_true, if_false]
          split at h1
          · simp only [Except.ok.injEq] at h1
            subst h1
            exact hE
          · simp at h1
        | false =>
          simp only [hr, Bool.false_eq_true, if_false] at h1
          cases he : fieldIs "error" m.1 with
          | true =>
            simp only [he, if_true] at h1 ⊢
            split at h1
            · rename_i e' he'
              simp only [Except.ok.injEq] at h1
              subst h1
              cases hm : m.2 with
              | null =>
                rw [hm] at he'
                simp only [decodeErrorPtr, Except.ok.injEq] at he'
                subst he'
                simp
              | object members =>
                rw [hm] at he'
                simp only [decodeErrorPtr] at he'
                split at he'
                · simp only [Except.ok.injEq] at he'
                  subst he'
                  simp
                · simp at he'
              | bool b => rw [hm] at he'; simp [decodeErrorPtr] at he'
              | number n => rw [hm] at he'; simp [decodeErrorPtr] at he'
              | string s => rw [hm] at he'; simp [decodeErrorPtr] at he'
              | array items => rw [hm] at he'; simp [decodeErrorPtr] at he'
            · simp at h1
          | false =>
            simp only [he, Bool.false_eq_true, if_false] at h1 ⊢
            simp only [Except.ok.injEq] at h1
            subst h1
            exact hE
    · simp at h

/-- A `result` member that cannot be decoded makes the decoding of the
envelope fail, wherever it stands. -/
theorem decodeCall_result_error :
    ∀ (ms : List (String × Raw)) (s : CallEnvelope) (m : String × Raw) (e : String),
      m ∈ ms → fieldIs "result" m.1 = true → toInterface m.2 = .error e →
      ∃ cause, foldExcept decodeCallField s ms = .error cause
  | [], _, _, _, hm, _, _ => by simp at hm
  | m0 :: ms, s, m, e, hm, hr, he => by
    simp only [foldExcept]
    cases h0 : decodeCallField s m0 with
    | error err => exact ⟨err, rfl⟩
    | ok s1 =>
      rcases List.mem_cons.mp hm with hm | hm
      · subst hm
        simp [decodeCallField, hr, he] at h0
      · exact decodeCall_result_error ms s1 m e hm hr he

/-- Decoding a body that is an object is decoding its members in order. -/
theorem unmarshalCall_object {body : String} {ms : List (String × Raw)}
    (h : parseJSON body = .ok (.object ms)) :
    unmarshalCall body = foldExcept decodeCallField ⟨.null, none⟩ ms := by
  unfold unmarshalCall
  rw [h]
  rfl

/-- On `demoClient` the server `srv` answers the request for `echo` with whatever
`answering` is given. -/
theorem demo_answers (status : Int) (body : String) :
    Answers demoClient (answering status body) "srv" "echo" none demoRequest ⟨status, .ok body⟩ :=
  ⟨_, _, rfl, rfl, rfl, rfl, rfl, rfl⟩

mutual
/-- A document can be decoded into an `interface{}` exactly when all its numbers
are within the range of `float64`. -/
theorem toInterface_ok_iff : ∀ r : Raw, (∃ v, toInterface r = .ok v) ↔ inFloatRange r = true
  | .null => by simp [toInterface, inFloatRange]
  | .bool b => by simp [toInterface, inFloatRange]
  | .string s => by simp [toInterface, inFloatRange]
  | .number lit => by
    simp only [toInterface, inFloatRange]
    cases parseFloat lit <;> simp
  | .array items => by
    simp only [toInterface, inFloatRange]
    rw [← toInterfaceItems_ok_iff items]
    cases toInterfaceItems items <;> simp
  | .object members => by
    simp only [toInterface, inFloatRange]
    rw [← toInterfaceMembers_ok_iff members]
    cases toInterfaceMembers members <;> simp
theorem toInterfaceItems_ok_iff :
    ∀ rs : List Raw, (∃ vs, toInterfaceItems rs = .ok vs) ↔ inFloatRangeItems rs = true
  | [] => by simp [toInterfaceItems, inFloatRangeItems]
  | r :: rs => by
    simp only [toInterfaceItems, inFloatRangeItems, Bool.and_eq_true]
    rw [← toInterface_ok_iff r, ← toInterfaceItems_ok_iff rs]
    cases toInterface r <;> cases toInterfaceItems rs <;> simp
theorem toInterfaceMembers_ok_iff :
    ∀ rs : List (String × Raw),
      (∃ vs, toInterfaceMembers rs = .ok vs) ↔ inFloatRangeMembers rs = true
  | [] => by simp [toInterfaceMembers, inFloatRangeMembers]
  | (k, r) :: rs => by
    simp only [toInterfaceMembers, inFloatRangeMembers, Bool.and_eq_true]
    rw [← toInterface_ok_iff r, ← toInterfaceMembers_ok_iff rs]
    cases toInterface r <;> cases toInterfaceMembers rs <;> simp
end

/-! ## The registry -/

/-- C1: whenever `AddServer(name, endpoint)` succeeds, `GetServers` afterwards
lists `name` exactly once; and when `AddServer` succeeds a second time in a row
under the same name, `name` is still listed exactly once, the list is as long
as before, and the record under `name` is the one of the second call. -/
theorem C1_addServer_lists_name_once (c : MCPClIENT) (net : Transport) (name endpoint : String)
    (h : (AddServer c net name endpoint).err = none) :
    (GetServers (AddServer c net name endpoint).client).count name = 1 ∧
    ∀ (net2 : Transport) (endpoint2 : String),
      (AddServer (AddServer c net name endpoint).client net2 name endpoint2).err = none →
      (GetServers (AddServer (AddServer c net name endpoint).client net2 name endpoint2).client).count
          name = 1 ∧
      (GetServers (AddServer (AddServer c net name endpoint).client net2 name endpoint2).client).length
        = (GetServers (AddServer c net name endpoint).client).length ∧
      ∃ server,
        (AddServer (AddServer c net name endpoint).client net2 name endpoint2).client.servers.lookup
            name = some server ∧
        server.Name = name ∧ server.Endpoint = endpoint2 ∧ server.Enabled = true := by
  obtain ⟨tools, resources, h1⟩ := addServer_ok c net name endpoint h
  refine ⟨?_, ?_⟩
  · rw [h1]
    exact count_keys_insert _ _ _
  · intro net2 endpoint2 h2
    obtain ⟨tools2, resources2, h3⟩ :=
      addServer_ok (AddServer c net name endpoint).client net2 name endpoint2 h2
    rw [h3]
    refine ⟨count_keys_insert _ _ _, ?_, ⟨_, AList.lookup_insert _, rfl, rfl, rfl⟩⟩
    rw [h1]
    simp only [GetServers, AList.keys_insert, List.length_cons]
    rw [List.erase_cons_head]

/-- C8: `EnableServer` and `DisableServer` return the not-found error exactly
when the name is not registered, and then leave the client as it is. For a
registered name they return no error, the record under the name is the old
one with `Enabled` set to `true` (resp. `false`), every other name has the
record it had, and the listed names are the same. -/
theorem C8_enable_disable_frame (c : MCPClIENT) (name : String) :
    ((EnableServer c name).err = some (notFoundText name) ↔ name ∉ GetServers c) ∧
    ((DisableServer c name).err = some (notFoundText name) ↔ name ∉ GetServers c) ∧
    (name ∉ GetServers c →
      (EnableServer c name).client = c ∧ (DisableServer c name).client = c) ∧
    ∀ server, c.servers.lookup name = some server →
      (EnableServer c name).err = none ∧ (DisableServer c name).err = none ∧
      (EnableServer c name).client.servers.lookup name = some { server with Enabled := true } ∧
      (DisableServer c name).client.servers.lookup name = some { server with Enabled := false } ∧
      (∀ other, other ≠ name →
        (EnableServer c name).client.servers.lookup other = c.servers.lookup other ∧
        (DisableServer c name).client.servers.lookup other = c.servers.lookup other) ∧
      GetServers (EnableServer c name).client = GetServers c ∧
      GetServers (DisableServer c name).client = GetServers c := by
  rw [not_mem_getServers_iff]
  cases hl : c.servers.lookup name with
  | none =>
    simp [EnableServer, DisableServer, hl, notFoundText]
  | some server =>
    have hmem : name ∈ c.servers := by
      rw [← AList.lookup_isSome, hl]; rfl
    have hE : EnableServer c name
        = ⟨⟨c.servers.replace name { server with Enabled := true }⟩, none, []⟩ := by
      simp [EnableServer, hl]
    have hD : DisableServer c name
        = ⟨⟨c.servers.replace name { server with Enabled := false }⟩, none, []⟩ := by
      simp [DisableServer, hl]
    rw [hE, hD]
    refine ⟨by simp, by simp, by simp, ?_⟩
    intro server2 hs
    cases hs
    refine ⟨rfl, rfl, lookup_replace_self _ _ hmem, lookup_replace_self _ _ hmem, ?_, ?_, ?_⟩
    · intro other ho
      exact ⟨lookup_replace_ne _ _ ho, lookup_replace_ne _ _ ho⟩
    · simp [GetServers, AList.keys_replace]
    · simp [GetServers, AList.keys_replace]

/-- C9: `RemoveServer` (which has no error to return) leaves the client as it
is when the name is not registered; afterwards the name is not listed, every
other name has the record it had, and removing a second time changes nothing. -/
theorem C9_removeServer_frame (c : MCPClIENT) (name : String) :
    (name ∉ GetServers c → RemoveServer c name = c) ∧
    name ∉ GetServers (RemoveServer c name) ∧
    (∀ other, other ≠ name →
      (RemoveServer c name).servers.lookup other = c.servers.lookup other) ∧
    RemoveServer (RemoveServer c name) name = RemoveServer c name := by
  have key : ∀ (s : AList (fun _ : String => MCPServer)), name ∉ s.keys → s.erase name = s := by
    intro s hs
    apply AList.ext
    exact List.kerase_of_not_mem_keys hs
  have hnot : name ∉ (c.servers.erase name).keys := by
    rw [← AList.mem_keys, AList.mem_erase]
    exact fun h => h.1 rfl
  refine ⟨?_, hnot, ?_, ?_⟩
  · intro h
    cases c with
    | mk servers => exact congrArg MCPClIENT.mk (key servers h)
  · intro other ho
    exact AList.lookup_erase_ne ho
  · exact congrArg MCPClIENT.mk (key _ hnot)

/-! ## `ExecuteTool` -/

/-- C4: for a name that is not registered `ExecuteTool` returns the not-found
error, for a registered but disabled server the disabled error; in both cases
the result is empty, no request is sent, and the outcome is the same whatever
the network would do. -/
theorem C4_executeTool_rejects_without_network (c : MCPClIENT) (net : Transport)
    (serverName toolName : String) (arguments : GoMap) :
    (serverName ∉ GetServers c →
      ExecuteTool c net serverName toolName arguments = ⟨"", some (notFoundText serverName), []⟩) ∧
    (∀ server, c.servers.lookup serverName = some server → server.Enabled = false →
      ExecuteTool c net serverName toolName arguments = ⟨"", some (disabledText serverName), []⟩) ∧
    ((serverName ∉ GetServers c ∨
        ∃ server, c.servers.lookup serverName = some server ∧ server.Enabled = false) →
      (ExecuteTool c net serverName toolName arguments).sent = [] ∧
      ∀ net2 : Transport, ExecuteTool c net2 serverName toolName arguments
        = ExecuteTool c net serverName toolName arguments) := by
  have h1 : ∀ n : Transport, c.servers.lookup serverName = none →
      ExecuteTool c n serverName toolName arguments = ⟨"", some (notFoundText serverName), []⟩ := by
    intro n h
    simp [ExecuteTool, h, notFoundText]
  have h2 : ∀ (n : Transport) (server : MCPServer), c.servers.lookup serverName = some server →
      server.Enabled = false →
      ExecuteTool c n serverName toolName arguments = ⟨"", some (disabledText serverName), []⟩ := by
    intro n server h he
    simp [ExecuteTool, h, he, disabledText]
  refine ⟨fun h => h1 net ((not_mem_getServers_iff c serverName).mp h), h2 net, ?_⟩
  rintro (h | ⟨server, h, he⟩)
  · have hl := (not_mem_getServers_iff c serverName).mp h
    exact ⟨by rw [h1 net hl], fun n => by rw [h1 n hl, h1 net hl]⟩
  · exact ⟨by rw [h2 net server h he], fun n => by rw [h2 n server h he, h2 net server h he]⟩

/-! ## `ExecuteTool`, answered -/

/-- C5 (as amended): when the registered, enabled server answers the
`tools/call` request with status 200 and a body that `json.Unmarshal` accepts
as an envelope with a nil `Error`, `ExecuteTool` returns with no error the text
that `json.Marshal` writes for the Go value decoded from the envelope's result,
its last `result` member (nil when there is none); marshalling that value
cannot fail. The text is written anew and not copied: a number comes back as
the `float64` nearest to it (`9007199254740993` as `9007199254740992`), the
members of an object sorted by key with the last of equal keys kept. When
`json.Unmarshal` rejects the body, as it does for a `result` member holding a
number beyond the range of `float64` (`{"result": 1e400, "error": null}`),
`ExecuteTool` returns an empty result and the error `failed to parse
response: ...`; a body `{"result": r, "error": null}` is accepted exactly when
every number in `r` is within the range of `float64`. For the body
`{"result": 42, "error": null}` it returns `42`. -/
theorem C5_executeTool_remarshals_result (c : MCPClIENT) (net : Transport)
    (serverName toolName : String) (arguments : GoMap) (req : HttpRequest) (resp : HttpResponse)
    (body : String)
    (h : Answers c net serverName toolName arguments req resp)
    (hs : resp.StatusCode = 200) (hb : resp.Body = .ok body) :
    (∀ env, unmarshalCall body = .ok env → env.Error = none →
      ∃ cs, marshalValue env.Result = .ok cs ∧
        ExecuteTool c net serverName toolName arguments = ⟨String.mk cs, none, [req]⟩) ∧
    (∀ ms env, parseJSON body = .ok (.object ms) → unmarshalCall body = .ok env →
      (lastField "error" ms = none ∨ lastField "error" ms = some .null) →
      ∃ v cs, toInterface ((lastField "result" ms).getD .null) = .ok v ∧
        marshalValue v = .ok cs ∧
        ExecuteTool c net serverName toolName arguments = ⟨String.mk cs, none, [req]⟩) ∧
    (∀ cause, unmarshalCall body = .error cause →
      ExecuteTool c net serverName toolName arguments
        = ⟨"", some ("failed to parse response: " ++ cause), [req]⟩) ∧
    (∀ ms m e, parseJSON body = .ok (.object ms) → m ∈ ms → fieldIs "result" m.1 = true →
      toInterface m.2 = .error e → ∃ cause, unmarshalCall body = .error cause) ∧
    (body = bodyResult42 →
      ExecuteTool c net serverName toolName arguments = ⟨"42", none, [req]⟩) ∧
    (body = bodyResultBig →
      ExecuteTool c net serverName toolName arguments = ⟨"9007199254740992", none, [req]⟩) ∧
    (body = bodyResultNested →
      ExecuteTool c net serverName toolName arguments
        = ⟨"\x7b\"a\":\"x\\ny\",\"b\":[1.5,\"a\\u003cb\",true,null]\x7d", none, [req]⟩) ∧
    (body = bodyResult1e400 →
      ∃ cause, ExecuteTool c net serverName toolName arguments
        = ⟨"", some ("failed to parse response: " ++ cause), [req]⟩) ∧
    (∀ r, parseJSON body = .ok (.object [("result", r), ("error", .null)]) →
      (inFloatRange r = true →
        ∃ v cs, toInterface r = .ok v ∧ marshalValue v = .ok cs ∧
          ExecuteTool c net serverName toolName arguments = ⟨String.mk cs, none, [req]⟩) ∧
      (inFloatRange r = false →
        ∃ cause, ExecuteTool c net serverName toolName arguments
          = ⟨"", some ("failed to parse response: " ++ cause), [req]⟩)) := by
  have hex := executeTool_ok_body h hs hb
  have key : ∀ env, unmarshalCall body = .ok env → env.Error = none →
      ∃ cs, marshalValue env.Result = .ok cs ∧
        ExecuteTool c net serverName toolName arguments = ⟨String.mk cs, none, [req]⟩ := by
    intro env hd he
    obtain ⟨cs, hcs⟩ := unmarshalCall_marshals hd
    refine ⟨cs, hcs, ?_⟩
    rw [hex]
    simp only [bodyOutcome, hd, he, hcs]
  refine ⟨key, ?_, ?_, ?_, ?_, ?_, ?_, ?_, ?_⟩
  · intro ms env hp hd he
    obtain ⟨cs, hcs, hE⟩ := key env hd
      ((decodeCall_last ms ⟨.null, none⟩ env none none
        ((unmarshalCall_object hp).symm.trans hd) rfl (by simp)).2.mpr he)
    exact ⟨env.Result, cs,
      (decodeCall_last ms ⟨.null, none⟩ env none none
        ((unmarshalCall_object hp).symm.trans hd) rfl (by simp)).1, hcs, hE⟩
  · intro cause hd
    rw [hex]
    simp only [bodyOutcome, hd]
  · intro ms m e hp hm hr he
    rw [unmarshalCall_object hp]
    exact decodeCall_result_error ms _ m e hm hr he
  · intro hbody
    subst hbody
    rw [hex]
    have hv : bodyOutcome bodyResult42 = ("42", none) := by decide
    rw [hv]
  · intro hbody
    subst hbody
    rw [hex]
    have hv : bodyOutcome bodyResultBig = ("9007199254740992", none) := by decide
    rw [hv]
  · intro hbody
    subst hbody
    rw [hex]
    have hv : bodyOutcome bodyResultNested
        = ("\x7b\"a\":\"x\\ny\",\"b\":[1.5,\"a\\u003cb\",true,null]\x7d", none) := by decide
    rw [hv]
  · intro hbody
    subst hbody
    rw [hex]
    have hv : bodyOutcome bodyResult1e400
        = ("", some ("failed to parse response: "
            ++ "json: cannot unmarshal number 1e400 into Go value of type float64")) := by decide!
    rw [hv]
    exact ⟨_, rfl⟩
  · intro r hp
    have f1 : fieldIs "result" "result" = true := by decide
    have f2 : fieldIs "result" "error" = false := by decide
    have f3 : fieldIs "error" "error" = true := by decide
    refine ⟨fun hin => ?_, fun hout => ?_⟩
    · obtain ⟨v, hv⟩ := (toInterface_ok_iff r).mpr hin
      have hd : unmarshalCall body = .ok ⟨v, none⟩ := by
        rw [unmarshalCall_object hp]
        simp [foldExcept, decodeCallField, f1, f2, f3, hv, decodeErrorPtr]
      obtain ⟨cs, hcs, hE⟩ := key ⟨v, none⟩ hd rfl
      exact ⟨v, cs, hv, hcs, hE⟩
    · cases he : toInterface r with
      | ok v =>
        have hin := (toInterface_ok_iff r).mp ⟨v, he⟩
        rw [hin] at hout
        exact absurd hout (by decide)
      | error e =>
        have hd : unmarshalCall body = .error e := by
          rw [unmarshalCall_object hp]
          simp [foldExcept, decodeCallField, f1, he]
        refine ⟨e, ?_⟩
        rw [hex]
        simp only [bodyOutcome, hd]

/-- C6 (as amended): when the registered, enabled server answers the
`tools/call` request with status 200 and a body that `json.Unmarshal` accepts
as an envelope with a non-nil `Error`, `ExecuteTool` returns an empty result
and the error `MCP error <code>: <message>`, whose text contains the decimal
code and the message; so it does for every body of the form `{"result": r,
"error": {"code": n, "message": m}}` in which `n` is an integer literal within
the range of `int` and every number in `r` is within the range of `float64`. When `json.Unmarshal` rejects the
body (a code such as `1.0` that is no integer literal, a code beyond the range
of `int`, a number in the result beyond the range of `float64`) `ExecuteTool`
returns the error `failed to parse response: ...` instead, which is never of
the form `MCP error ...`. For the body `{"result": null, "error": {"code": 1,
"message": "boom"}}` the error is `MCP error 1: boom`, which contains `boom`. -/
theorem C6_executeTool_remote_error_or_parse_error (c : MCPClIENT) (net : Transport)
    (serverName toolName : String) (arguments : GoMap) (req : HttpRequest) (resp : HttpResponse)
    (body : String)
    (h : Answers c net serverName toolName arguments req resp)
    (hs : resp.StatusCode = 200) (hb : resp.Body = .ok body) :
    (∀ env e, unmarshalCall body = .ok env → env.Error = some e →
      ExecuteTool c net serverName toolName arguments = ⟨"", some (mcpErrorText e), [req]⟩ ∧
      Contains (mcpErrorText e) (toString e.Code) ∧ Contains (mcpErrorText e) e.Message) ∧
    (∀ r lit msg n,
      parseJSON body = .ok (.object [("result", r),
        ("error", .object [("code", .number lit), ("message", .string msg)])]) →
      inFloatRange r = true → parseInt lit = some n →
      ExecuteTool c net serverName toolName arguments
        = ⟨"", some ("MCP error " ++ toString n ++ ": " ++ msg), [req]⟩) ∧
    (∀ r lit msg,
      parseJSON body = .ok (.object [("result", r),
        ("error", .object [("code", .number lit), ("message", .string msg)])]) →
      (inFloatRange r = false ∨ parseInt lit = none) →
      ∃ cause, ExecuteTool c net serverName toolName arguments
        = ⟨"", some ("failed to parse response: " ++ cause), [req]⟩) ∧
    (∀ cause, unmarshalCall body = .error cause →
      ExecuteTool c net serverName toolName arguments
        = ⟨"", some ("failed to parse response: " ++ cause), [req]⟩ ∧
      ∀ e, "failed to parse response: " ++ cause ≠ mcpErrorText e) ∧
    (body = bodyErrorBoom →
      ExecuteTool c net serverName toolName arguments = ⟨"", some "MCP error 1: boom", [req]⟩ ∧
      Contains "MCP error 1: boom" "boom") ∧
    (body = bodyErrorEscaped →
      ExecuteTool c net serverName toolName arguments
        = ⟨"", some "MCP error -32601: no \"echo\"!\n", [req]⟩) ∧
    (body = bodyErrorCodeFloat →
      ∃ cause, ExecuteTool c net serverName toolName arguments
        = ⟨"", some ("failed to parse response: " ++ cause), [req]⟩) := by
  have hex := executeTool_ok_body h hs hb
  have f1 : fieldIs "result" "result" = true := by decide
  have f2 : fieldIs "result" "error" = false := by decide
  have f3 : fieldIs "error" "error" = true := by decide
  have f4 : fieldIs "code" "code" = true := by decide
  have f5 : fieldIs "code" "message" = false := by decide
  have f6 : fieldIs "message" "message" = true := by decide
  refine ⟨?_, ?_, ?_, ?_, ?_, ?_, ?_⟩
  · intro env e hd he
    refine ⟨?_, ?_, ?_⟩
    · rw [hex]
      simp only [bodyOutcome, hd, he]
    · unfold mcpErrorText
      exact contains_append_left _ _ _ (contains_append_left _ _ _ (contains_append_right _ _))
    · unfold mcpErrorText
      exact contains_append_right _ _
  · intro r lit msg n hp hin hn
    obtain ⟨v, hv⟩ := (toInterface_ok_iff r).mpr hin
    have hd : unmarshalCall body = .ok ⟨v, some ⟨n, msg⟩⟩ := by
      rw [unmarshalCall_object hp]
      simp [foldExcept, decodeCallField, f1, f2, f3, hv, decodeErrorPtr, decodeRPCErrorField, f4,
        f5, f6, decodeInt, hn, decodeString]
    rw [hex]
    simp only [bodyOutcome, hd, mcpErrorText]
  · intro r lit msg hp hbad
    have hfail : ∃ cause, unmarshalCall body = .error cause := by
      rw [unmarshalCall_object hp]
      cases hv : toInterface r with
      | error e =>
        have hf : foldExcept decodeCallField ⟨.null, none⟩ [("result", r),
            ("error", .object [("code", .number lit), ("message", .string msg)])] = .error e := by
          simp [foldExcept, decodeCallField, f1, hv]
        exact ⟨_, hf⟩
      | ok v =>
        have hin := (toInterface_ok_iff r).mp ⟨v, hv⟩
        rcases hbad with hout | hn
        · rw [hin] at hout
          exact absurd hout (by decide)
        · have hf : foldExcept decodeCallField ⟨.null, none⟩ [("result", r),
              ("error", .object [("code", .number lit), ("message", .string msg)])]
              = .error (typeError ("number " ++ String.mk lit) "error.code") := by
            simp [foldExcept, decodeCallField, f1, f2, f3, hv, decodeErrorPtr,
              decodeRPCErrorField, f4, decodeInt, hn]
          exact ⟨_, hf⟩
    obtain ⟨cause, hd⟩ := hfail
    refine ⟨cause, ?_⟩
    rw [hex]
    simp only [bodyOutcome, hd]
  · intro cause hd
    refine ⟨?_, fun e => parseError_ne_mcpError cause e⟩
    rw [hex]
    simp only [bodyOutcome, hd]
  · intro hbody
    subst hbody
    rw [hex]
    have hv : bodyOutcome bodyErrorBoom = ("", some "MCP error 1: boom") := by decide
    rw [hv]
    exact ⟨rfl, "MCP error 1: ".data, [], rfl⟩
  · intro hbody
    subst hbody
    rw [hex]
    have hv : bodyOutcome bodyErrorEscaped = ("", some "MCP error -32601: no \"echo\"!\n") := by
      decide
    rw [hv]
  · intro hbody
    subst hbody
    rw [hex]
    have hv : bodyOutcome bodyErrorCodeFloat
        = ("", some ("failed to parse response: "
            ++ "json: cannot unmarshal number 1.0 into Go struct field error.code")) := by decide
    rw [hv]
    exact ⟨_, rfl⟩

/-- C5 as stated fails: the server `srv` of `demoClient` is registered and
enabled and answers with status 200. With the body `{"result": 1e400, "error":
null}`, an envelope whose error is null, `ExecuteTool` returns an error and an
empty result. With the body `{"result": 9007199254740993, "error": null}` it
returns the text `9007199254740992`, which is not the result of the envelope. -/
theorem C5_counterexample :
    Answers demoClient (answering 200 bodyResult1e400) "srv" "echo" none demoRequest
      ⟨200, .ok bodyResult1e400⟩ ∧
    parseJSON bodyResult1e400
      = .ok (.object [("result", .number "1e400".data), ("error", .null)]) ∧
    (ExecuteTool demoClient (answering 200 bodyResult1e400) "srv" "echo" none).err ≠ none ∧
    (ExecuteTool demoClient (answering 200 bodyResult1e400) "srv" "echo" none).result = "" ∧
    Answers demoClient (answering 200 bodyResultBig) "srv" "echo" none demoRequest
      ⟨200, .ok bodyResultBig⟩ ∧
    parseJSON bodyResultBig
      = .ok (.object [("result", .number "9007199254740993".data), ("error", .null)]) ∧
    ExecuteTool demoClient (answering 200 bodyResultBig) "srv" "echo" none
      = ⟨"9007199254740992", none, [demoRequest]⟩ ∧
    "9007199254740992" ≠ "9007199254740993" :=
  ⟨demo_answers _ _, by rfl, by decide!, by decide!, demo_answers _ _, by rfl, by decide,
    by decide⟩

/-- C6 as stated fails: the server `srv` of `demoClient` is registered and
enabled and answers with status 200 and the body `{"result": 1e400, "error":
{"code": 1, "message": "boom"}}`, an envelope with a non-null error. The error
`ExecuteTool` returns is the one for a response that cannot be parsed: it is
not `MCP error <code>: <message>` for any code and message, and its text does
not contain `boom`. -/
theorem C6_counterexample :
    Answers demoClient (answering 200 bodyErrorBoom1e400) "srv" "echo" none demoRequest
      ⟨200, .ok bodyErrorBoom1e400⟩ ∧
    parseJSON bodyErrorBoom1e400
      = .ok (.object [("result", .number "1e400".data),
          ("error", .object [("code", .number "1".data), ("message", .string "boom")])]) ∧
    ∃ cause,
      ExecuteTool demoClient (answering 200 bodyErrorBoom1e400) "srv" "echo" none
        = ⟨"", some ("failed to parse response: " ++ cause), [demoRequest]⟩ ∧
      (∀ e : RPCError, "failed to parse response: " ++ cause ≠ mcpErrorText e) ∧
      ¬ Contains ("failed to parse response: " ++ cause) "boom" :=
  ⟨demo_answers _ _, by rfl,
    "json: cannot unmarshal number 1e400 into Go value of type float64", by decide!,
    fun e => parseError_ne_mcpError _ e, by
      unfold Contains
      set_option maxRecDepth 20000 in decide⟩

/-- C7: when the registered, enabled server answers the `tools/call` request
with a status outside 200..299, `ExecuteTool` returns an empty result and the
error `MCP server returned status <code>` with that status code, whatever the
body of the response is (the body is not read). -/
theorem C7_executeTool_non2xx_status_error (c : MCPClIENT) (net : Transport)
    (serverName toolName : String) (arguments : GoMap) (req : HttpRequest) (resp : HttpResponse)
    (h : Answers c net serverName toolName arguments req resp)
    (hs : resp.StatusCode < 200 ∨ 299 < resp.StatusCode) :
    ExecuteTool c net serverName toolName arguments
      = ⟨"", some (statusText resp.StatusCode), [req]⟩ ∧
    Contains (statusText resp.StatusCode) (toString resp.StatusCode) := by
  have hne : resp.StatusCode ≠ 200 := by omega
  rw [executeTool_answered h, if_pos hne]
  exact ⟨rfl, contains_append_right _ _⟩

/-- C10: `ExecuteTool` accepts status 200 only: when the registered, enabled
server answers the `tools/call` request with any other status, 201 or 204
included, it returns an empty result and the status error, whatever the body
is; with status 200 the outcome is decided by the body, not by the status. -/
theorem C10_executeTool_accepts_only_200 (c : MCPClIENT) (net : Transport)
    (serverName toolName : String) (arguments : GoMap) (req : HttpRequest) (resp : HttpResponse)
    (h : Answers c net serverName toolName arguments req resp) :
    (resp.StatusCode ≠ 200 →
      ExecuteTool c net serverName toolName arguments
        = ⟨"", some (statusText resp.StatusCode), [req]⟩) ∧
    (resp.StatusCode = 200 → ∀ body env, resp.Body = .ok body → unmarshalCall body = .ok env →
      env.Error = none → (ExecuteTool c net serverName toolName arguments).err = none) := by
  refine ⟨fun hne => ?_, fun hs body env hb hd he => ?_⟩
  · rw [executeTool_answered h, if_pos hne]
  · obtain ⟨cs, hcs⟩ := unmarshalCall_marshals hd
    rw [executeTool_answered h]
    simp only [hs, hb, hd, he, hcs, ne_eq, not_true_eq_false, if_false]

/-! ## Discovery and the response status -/

/-- C2 (the code at the failing input): the answer to `tools/list` has status
500 and a well-formed envelope; `AddServer` on the empty client sends the two
discovery requests, returns no error, and the server is listed afterwards. -/
theorem C2_addServer_registers_despite_status_500 :
    (∃ resp, toolsStatus500.roundTrip ⟨"POST", "http://mcp.test", "application/json", toolsListBody⟩
        = .ok resp ∧ resp.StatusCode = 500) ∧
    "srv" ∉ GetServers NewMCPClient ∧
    (AddServer NewMCPClient toolsStatus500 "srv" "http://mcp.test").sent
      = [⟨"POST", "http://mcp.test", "application/json", toolsListBody⟩,
         ⟨"POST", "http://mcp.test", "application/json", resourcesListBody⟩] ∧
    (AddServer NewMCPClient toolsStatus500 "srv" "http://mcp.test").err = none ∧
    "srv" ∈ GetServers (AddServer NewMCPClient toolsStatus500 "srv" "http://mcp.test").client :=
  ⟨⟨_, rfl, rfl⟩, by decide, by decide, by decide, by decide⟩

/-- C3 (the code at the failing input): `tools/list` succeeds and the answer to
`resources/list` has status 500 and a well-formed envelope with one resource;
`AddServer` returns no error and registers the server with the discovered
tool, and the registered resource list holds that resource: it is not empty. -/
theorem C3_addServer_keeps_resources_despite_status_500 :
    (∃ resp, resourcesStatus500.roundTrip
        ⟨"POST", "http://mcp.test", "application/json", resourcesListBody⟩
        = .ok resp ∧ resp.StatusCode = 500) ∧
    (AddServer NewMCPClient resourcesStatus500 "srv" "http://mcp.test").err = none ∧
    ((AddServer NewMCPClient resourcesStatus500 "srv" "http://mcp.test").client.servers.lookup
        "srv").map (fun server => server.Tools.map (fun tool => tool.Name)) = some ["echo"] ∧
    ((AddServer NewMCPClient resourcesStatus500 "srv" "http://mcp.test").client.servers.lookup
        "srv").map (fun server => server.Resources) = some [⟨"file:///a", "a", "", ""⟩] :=
  ⟨⟨_, rfl, rfl⟩, by decide, by decide, by decide⟩

/-- When resource discovery returns an error, `AddServer` still succeeds and
stores the server with the discovered tools and no resources. -/
theorem addServer_swallows_resource_error (c : MCPClIENT) (net : Transport)
    (name endpoint : String) (tools : List MCPTool) (sentT sentR : List HttpRequest) (e : String)
    (hT : discoverTools net endpoint = (.ok tools, sentT))
    (hR : discoverResources net endpoint = (.error e, sentR)) :
    (AddServer c net name endpoint).err = none ∧
    (AddServer c net name endpoint).client.servers.lookup name
      = some ⟨name, endpoint, true, tools, []⟩ := by
  have hA : AddServer c net name endpoint
      = ⟨⟨c.servers.insert name ⟨name, endpoint, true, tools, []⟩⟩, none, sentT ++ sentR⟩ := by
    unfold AddServer
    simp only [hT, hR]
  rw [hA]
  exact ⟨rfl, AList.lookup_insert _⟩

/-- With a `resources/list` answer of status 500 whose body is not JSON the
registered resource list is empty. -/
theorem addServer_resourcesBroken :
    (AddServer NewMCPClient resourcesBroken "srv" "http://mcp.test").err = none ∧
    ((AddServer NewMCPClient resourcesBroken "srv" "http://mcp.test").client.servers.lookup
        "srv").map (fun server => server.Resources) = some [] := by
  decide

/-! ## Instances -/

/-- The theorem for C1 on the empty client: two successful calls in a row under the
name `srv`, the second one with a failing resource discovery. -/
theorem C1_witness :
    (AddServer NewMCPClient (answering 200 bodyEmptyResult) "srv"
        "http://mcp.test").err = none ∧
    (AddServer
        (AddServer NewMCPClient (answering 200 bodyEmptyResult) "srv"
          "http://mcp.test").client
        resourcesBroken "srv" "http://other.test").err = none ∧
    (GetServers (AddServer NewMCPClient (answering 200 bodyEmptyResult) "srv"
        "http://mcp.test").client).count "srv" = 1 ∧
    (GetServers (AddServer
        (AddServer NewMCPClient (answering 200 bodyEmptyResult) "srv"
          "http://mcp.test").client
        resourcesBroken "srv" "http://other.test").client).count "srv" = 1 :=
  ⟨by decide, by decide,
    (C1_addServer_lists_name_once NewMCPClient (answering 200 bodyEmptyResult)
      "srv" "http://mcp.test" (by decide)).1,
    ((C1_addServer_lists_name_once NewMCPClient (answering 200 bodyEmptyResult)
      "srv" "http://mcp.test" (by decide)).2 resourcesBroken "http://other.test" (by decide)).1⟩

/-- The theorem for C4 on `demoClient`: the unknown name `nope` and the disabled
server `off`. -/
theorem C4_witness :
    "nope" ∉ GetServers demoClient ∧
    ExecuteTool demoClient (answering 200 "") "nope" "echo" none
      = ⟨"", some "MCP server nope not found", []⟩ ∧
    demoClient.servers.lookup "off" = some ⟨"off", "http://off.test", false, [], []⟩ ∧
    ExecuteTool demoClient (answering 200 "") "off" "echo" none
      = ⟨"", some "MCP server off is disabled", []⟩ :=
  ⟨by decide,
    (C4_executeTool_rejects_without_network demoClient (answering 200 "") "nope" "echo" none).1
      (by decide),
    rfl,
    (C4_executeTool_rejects_without_network demoClient (answering 200 "") "off" "echo" none).2.1
      _ rfl rfl⟩

/-- The theorem for C5 on `demoClient` with the body `bodyResult42`: the result
member is the literal `42`, and the returned text is `42`. -/
theorem C5_witness :
    Answers demoClient (answering 200 bodyResult42) "srv" "echo" none
      demoRequest ⟨200, .ok bodyResult42⟩ ∧
    parseJSON bodyResult42 = .ok (.object [("result", .number "42".data), ("error", .null)]) ∧
    ExecuteTool demoClient (answering 200 bodyResult42) "srv" "echo" none
      = ⟨"42", none, [demoRequest]⟩ ∧
    ∃ v cs, toInterface (.number "42".data) = .ok v ∧ marshalValue v = .ok cs ∧
      ExecuteTool demoClient (answering 200 bodyResult42) "srv" "echo" none
        = ⟨String.mk cs, none, [demoRequest]⟩ :=
  ⟨demo_answers _ _, by rfl,
    (C5_executeTool_remarshals_result demoClient _ "srv" "echo" none demoRequest
      ⟨200, .ok bodyResult42⟩ bodyResult42 (demo_answers _ _) rfl rfl).2.2.2.2.1 rfl,
    (C5_executeTool_remarshals_result demoClient _ "srv" "echo" none demoRequest
      ⟨200, .ok bodyResult42⟩ bodyResult42 (demo_answers _ _) rfl rfl).2.1
      [("result", .number "42".data), ("error", .null)]
      ⟨.number (.finite false 5910974510923776 (-47)), none⟩ (by rfl) (by rfl) (Or.inr (by rfl))⟩

/-- The theorem for C6 on `demoClient` with the body `bodyErrorBoom`. -/
theorem C6_witness :
    Answers demoClient (answering 200 bodyErrorBoom) "srv" "echo" none demoRequest
      ⟨200, .ok bodyErrorBoom⟩ ∧
    parseJSON bodyErrorBoom = .ok (.object [("result", .null),
      ("error", .object [("code", .number "1".data), ("message", .string "boom")])]) ∧
    ExecuteTool demoClient (answering 200 bodyErrorBoom) "srv" "echo" none
      = ⟨"", some ("MCP error " ++ toString (1 : Int) ++ ": " ++ "boom"), [demoRequest]⟩ ∧
    ExecuteTool demoClient (answering 200 bodyErrorBoom) "srv" "echo" none
      = ⟨"", some "MCP error 1: boom", [demoRequest]⟩ :=
  ⟨demo_answers _ _, by rfl,
    (C6_executeTool_remote_error_or_parse_error demoClient _ "srv" "echo" none demoRequest
      ⟨200, .ok bodyErrorBoom⟩ bodyErrorBoom (demo_answers _ _) rfl rfl).2.1
      .null "1".data "boom" 1 (by rfl) (by rfl) (by rfl),
    ((C6_executeTool_remote_error_or_parse_error demoClient _ "srv" "echo" none demoRequest
      ⟨200, .ok bodyErrorBoom⟩ bodyErrorBoom (demo_answers _ _) rfl rfl).2.2.2.2.1 rfl).1⟩

/-- The theorem for C7 on `demoClient`: status 500 with a success envelope as body. -/
theorem C7_witness :
    Answers demoClient (answering 500 bodyResult42) "srv" "echo" none
      demoRequest ⟨500, .ok bodyResult42⟩ ∧
    ExecuteTool demoClient (answering 500 bodyResult42) "srv" "echo" none
      = ⟨"", some "MCP server returned status 500", [demoRequest]⟩ :=
  ⟨demo_answers _ _,
    (C7_executeTool_non2xx_status_error demoClient _ "srv" "echo" none demoRequest
      ⟨500, .ok bodyResult42⟩ (demo_answers _ _)
      (Or.inr (by decide))).1⟩

/-- The theorem for C8 on `demoClient`: enabling the unknown name `nope` and the
disabled server `off`. -/
theorem C8_witness :
    "nope" ∉ GetServers demoClient ∧ (EnableServer demoClient "nope").client = demoClient ∧
    demoClient.servers.lookup "off" = some ⟨"off", "http://off.test", false, [], []⟩ ∧
    (EnableServer demoClient "off").client.servers.lookup "off"
      = some ⟨"off", "http://off.test", true, [], []⟩ ∧
    (EnableServer demoClient "off").client.servers.lookup "srv" = demoClient.servers.lookup "srv" :=
  ⟨by decide, ((C8_enable_disable_frame demoClient "nope").2.2.1 (by decide)).1, rfl,
    ((C8_enable_disable_frame demoClient "off").2.2.2 _ rfl).2.2.1,
    (((C8_enable_disable_frame demoClient "off").2.2.2 _ rfl).2.2.2.2.1 "srv" (by decide)).1⟩

/-- The theorem for C9 on `demoClient`: removing the unknown name `nope`, and `srv`. -/
theorem C9_witness :
    "nope" ∉ GetServers demoClient ∧ RemoveServer demoClient "nope" = demoClient ∧
    (RemoveServer demoClient "srv").servers.lookup "off" = demoClient.servers.lookup "off" :=
  ⟨by decide, (C9_removeServer_frame demoClient "nope").1 (by decide),
    (C9_removeServer_frame demoClient "srv").2.2.1 "off" (by decide)⟩

/-- The theorem for C10 on `demoClient`: status 204 with a success envelope as body. -/
theorem C10_witness :
    Answers demoClient (answering 204 bodyResult42) "srv" "echo" none
      demoRequest ⟨204, .ok bodyResult42⟩ ∧
    ExecuteTool demoClient (answering 204 bodyResult42) "srv" "echo" none
      = ⟨"", some "MCP server returned status 204", [demoRequest]⟩ :=
  ⟨demo_answers _ _,
    (C10_executeTool_accepts_only_200 demoClient _ "srv" "echo" none demoRequest
      ⟨204, .ok bodyResult42⟩ (demo_answers _ _)).1 (by decide)⟩

end MCP
